import Mathlib

/-!
Verification of the exif-reader repository (Go) against its specification.

The Go source is shallowly embedded: byte buffers are `List Nat` (each element
a byte value), machine integers are `Nat`/`Int` with explicit `% 2^w` where
overflow matters, `float64` values that only ever hold exact ratios of 32-bit
integers are modelled as `ℚ`, and fallible operations return `Option`/`Except`.
A Go runtime panic (index/slice out of range) is modelled as `Option.none`:
Go slice expressions `d[lo:hi]` panic unless `0 ≤ lo ≤ hi ≤ len(d)` (the
capacity of a freshly-read buffer equals its length).
-/

/-- Byte order, mirroring `binary.LittleEndian` / `binary.BigEndian`. -/
inductive En where
| le
| be
deriving DecidableEq, Repr

/-- Go indexing `d[i]`: `none` models the runtime panic on an out-of-range index. -/
def byteAt (d : List Nat) (i : Int) : Option Nat :=
if 0 ≤ i then d.get? i.toNat else none

/-- Go slicing `d[lo:hi]`: `none` models the runtime panic when
`0 ≤ lo ≤ hi ≤ len d` fails. -/
def sliceAt (d : List Nat) (lo hi : Int) : Option (List Nat) :=
if 0 ≤ lo ∧ lo ≤ hi ∧ hi ≤ (d.length : Int) then
  some ((d.drop lo.toNat).take (hi - lo).toNat)
else none

/-- In-bounds sub-list of `n` bytes starting at `lo` (used after a bounds guard). -/
def subList (d : List Nat) (lo n : Nat) : List Nat :=
(d.drop lo).take n

/-- Uint16 decoding of a 2-byte list, as `binary.ByteOrder.Uint16`. -/
def u16 (en : En) (b : List Nat) : Nat :=
match en with
| .le => b.getD 0 0 + 256 * b.getD 1 0
| .be => b.getD 1 0 + 256 * b.getD 0 0

/-- Uint32 decoding of a 4-byte list, as `binary.ByteOrder.Uint32`. -/
def u32 (en : En) (b : List Nat) : Nat :=
match en with
| .le => b.getD 0 0 + 256 * (b.getD 1 0 + 256 * (b.getD 2 0 + 256 * b.getD 3 0))
| .be => b.getD 3 0 + 256 * (b.getD 2 0 + 256 * (b.getD 1 0 + 256 * b.getD 0 0))

/-- The 4-byte encoding whose decoding is `u32` (the `binary.PutUint32` layout). -/
def enc32 (en : En) (n : Nat) : List Nat :=
match en with
| .le => [n % 256, n / 256 % 256, n / 65536 % 256, n / 16777216 % 256]
| .be => [n / 16777216 % 256, n / 65536 % 256, n / 256 % 256, n % 256]

/-- Go conversion `int32(x)` of a uint32 value (two's complement reinterpretation). -/
def i32 (x : Nat) : Int :=
if x < 2147483648 then (x : Int) else (x : Int) - 4294967296

/-- Go `string(bytes)` for the byte values this code compares (ASCII range),
one `Char` per byte. -/
def strOfBytes (l : List Nat) : String :=
String.mk (l.map Char.ofNat)

/-- Drop trailing zero bytes: `strings.TrimRight(s, "\x00")` at the byte level. -/
def dropTrailingZeros (l : List Nat) : List Nat :=
(l.reverse.dropWhile (· == 0)).reverse

/-- The `ValueExtractor` struct of `valueextractor.go`. -/
structure ValueExtractor where
  Data : List Nat
  TiffStart : Int
  Endian : En

/-- The `IFDEntry` struct (`Tag`, `DataType`, `Count`, `ValueOffset`), all
non-negative machine integers. -/
structure IFDEntry where
  Tag : Nat
  DataType : Nat
  Count : Nat
  ValueOffset : Nat
deriving DecidableEq, Repr

/-- Lines 20-25 of `valueextractor.go` (`getString`): no bounds check is
performed before slicing, so `none` (panic) is a possible outcome. -/
def getString (e : ValueExtractor) (entryOffset offset count : Int) : Option String :=
if count ≤ 4 then
  (sliceAt e.Data (entryOffset + 8) (entryOffset + 8 + count)).map
    (fun bs => strOfBytes (dropTrailingZeros bs))
else
  (sliceAt e.Data offset (offset + count)).map
    (fun bs => strOfBytes (dropTrailingZeros bs))

/-- Method `GetString` of `ValueExtractor`. -/
def GetString (e : ValueExtractor) (entry : IFDEntry) (entryOffset : Int) : Option String :=
getString e entryOffset (e.TiffStart + (entry.ValueOffset : Int)) (entry.Count : Int)

/-- Method `GetUint32`: bounds-checked, returns 0 when out of range. -/
def GetUint32 (e : ValueExtractor) (entryOffset : Int) : Nat :=
if entryOffset < 0 ∨ entryOffset + 12 > (e.Data.length : Int) then 0
else u32 e.Endian (subList e.Data (entryOffset + 8).toNat 4)

/-- Method `GetUint16`: bounds-checked, returns 0 when out of range. -/
def GetUint16 (e : ValueExtractor) (entryOffset : Int) : Nat :=
if entryOffset < 0 ∨ entryOffset + 10 > (e.Data.length : Int) then 0
else u16 e.Endian (subList e.Data (entryOffset + 8).toNat 2)

/-- Method `GetUint8`: bounds-checked, returns 0 when out of range. -/
def GetUint8 (e : ValueExtractor) (entryOffset : Int) : Nat :=
if entryOffset < 0 ∨ entryOffset + 8 ≥ (e.Data.length : Int) then 0
else (e.Data.getD (entryOffset + 8).toNat 0)

/-- Method `GetUint8Array` (lines 113-117): it slices
`e.Data[entryOffset+8 : entryOffset+8+numSlices]` without any bounds check,
so `none` (panic) is a possible outcome. -/
def GetUint8Array (e : ValueExtractor) (entryOffset numSlices : Int) : Option (List Nat) :=
sliceAt e.Data (entryOffset + 8) (entryOffset + 8 + numSlices)

/-- Method `GetUint32Array`: returns `[]` (Go `nil`) when out of range. -/
def GetUint32Array (e : ValueExtractor) (entry : IFDEntry) (count : Nat) : List Nat :=
let offset : Int := e.TiffStart + (entry.ValueOffset : Int)
if offset < 0 ∨ offset + (count * 4 : Nat) > (e.Data.length : Int) then []
else (List.range count).map (fun i => u32 e.Endian (subList e.Data (offset.toNat + i * 4) 4))

/-- Function `getRational` (lines 28-50): bounds-checked; `float64` arithmetic
on exact 32-bit numerator/denominator is modelled as exact arithmetic in `ℚ`. -/
def getRational (e : ValueExtractor) (offset : Int) (signed : Bool) : ℚ :=
if offset < 0 ∨ offset + 8 > (e.Data.length : Int) then 0
else
  let num := u32 e.Endian (subList e.Data offset.toNat 4)
  let den := u32 e.Endian (subList e.Data (offset.toNat + 4) 4)
  let numQ : ℚ := if signed then (i32 num : ℚ) else (num : ℚ)
  let denQ : ℚ := if signed then (i32 den : ℚ) else (den : ℚ)
  if denQ = 0 then 0 else numQ / denQ

/-- Function `getGPSCoordinate` (lines 64-71): degrees + minutes/60 + seconds/3600. -/
def getGPSCoordinate (e : ValueExtractor) (offset : Int) : ℚ :=
getRational e offset false + getRational e (offset + 8) false / 60 +
  getRational e (offset + 16) false / 3600

/-- Method `GetRational`. -/
def GetRational (e : ValueExtractor) (entry : IFDEntry) (nestedOffset : Int) (signed : Bool) : ℚ :=
getRational e (e.TiffStart + (entry.ValueOffset : Int) + nestedOffset) signed

/-- Method `GetGPSCoord`. -/
def GetGPSCoord (e : ValueExtractor) (entry : IFDEntry) : ℚ :=
getGPSCoordinate e (e.TiffStart + (entry.ValueOffset : Int))

/-- Method `GetByteArray` (lines 134-149): bounds-checked, `[]` models Go `nil`. -/
def GetByteArray (e : ValueExtractor) (entry : IFDEntry) (entryOffset : Int) : List Nat :=
let offset : Int :=
  if entry.Count ≤ 4 then entryOffset + 8 else e.TiffStart + (entry.ValueOffset : Int)
if offset < 0 ∨ offset + (entry.Count : Int) > (e.Data.length : Int) then []
else subList e.Data offset.toNat entry.Count

/-- C1: the spec demands that every byte-cursor accessor return a zero value or
empty string or nil on an out-of-range offset/count and never panic.  The
string accessor and the uint8-array accessor perform unchecked slices: on an
empty buffer, reading 4 inline string bytes, 5 offset string bytes, or a
4-byte uint8 array all hit the out-of-range panic (modelled as `none`) instead
of returning a default value. -/
theorem c1_accessors_panic_on_out_of_range :
    GetString ⟨[], 0, .le⟩ ⟨271, 2, 4, 0⟩ 0 = none ∧
    GetString ⟨[], 0, .le⟩ ⟨271, 2, 5, 0⟩ 0 = none ∧
    GetUint8Array ⟨[], 0, .le⟩ 0 4 = none := by
  refine ⟨rfl, rfl, rfl⟩

/-- Carry-propagation phase of `multiply64` (`google.go` lines 205-221).  The
Perl-style loop `while c[j] > 0xffffffff { c[j-2]++; c[j] -= 4294967296 }`
is repeated subtraction, i.e. it adds `c[j] / 2^32` to `c[j-2]` and leaves
`c[j] % 2^32`; the subsequent `c[j-1] += c[j] >> 16; c[j] &= 0xffff` is the
16-bit carry.  Carries into `c[2]`, `c[1]` are discarded (never read by the
result extraction), as in the source.  The final `uint32(...)` casts are the
`% 4294967296`. -/
def mul64carry (c3 c4 c5 c6 : Nat) : Nat × Nat :=
  let c4a := c4 + c6 / 4294967296
  let r6 := c6 % 4294967296
  let c5a := c5 + r6 / 65536
  let c6f := r6 % 65536
  let c3a := c3 + c5a / 4294967296
  let r5 := c5a % 4294967296
  let c4b := c4a + r5 / 65536
  let c5f := r5 % 65536
  let r4 := c4b % 4294967296
  let c3b := c3a + r4 / 65536
  let c4f := r4 % 65536
  let r3 := c3b % 4294967296
  let c3f := r3 % 65536
  ((c3f * 65536 + c4f) % 4294967296, (c5f * 65536 + c6f) % 4294967296)

/-- Function `multiply64` of `google.go`: unpack `(hi, lo)` into big-endian
16-bit limbs `a0..a3`, form the schoolbook partial sums
`c[j+k] += a[j] * b[k]` against the limbs `[0x2545, 0xf491, 0x4f6c, 0xdd1d]`
of the constant `0x2545f4914f6cdd1d` (the sums `c[0]..c[2]` of the source are
dropped here because the carry phase never reads them into the result), then
propagate carries. -/
def multiply64 (hi lo : Nat) : Nat × Nat :=
  let a0 := hi / 65536 % 65536
  let a1 := hi % 65536
  let a2 := lo / 65536 % 65536
  let a3 := lo % 65536
  mul64carry
    (a0 * 56605 + a1 * 20332 + a2 * 62609 + a3 * 9541)
    (a1 * 56605 + a2 * 20332 + a3 * 62609)
    (a2 * 56605 + a3 * 20332)
    (a3 * 56605)

/-- The carry-propagation phase reduces the weighted limb sums modulo `2^64`,
for all (unbounded) partial sums. -/
theorem mul64carry_spec (c3 c4 c5 c6 : Nat) :
    (mul64carry c3 c4 c5 c6).1 * 4294967296 + (mul64carry c3 c4 c5 c6).2
      = (c3 * 281474976710656 + c4 * 4294967296 + c5 * 65536 + c6) % 18446744073709551616 := by
  simp only [mul64carry]
  omega

/-- C3: for all 32-bit words `hi` and `lo`, the 16-bit-limb schoolbook
multiplication routine `multiply64` returns exactly the low 64 bits of
`(hi * 2^32 + lo) * 0x2545f4914f6cdd1d`, i.e. it agrees with native 64-bit
modular multiplication by that fixed constant. -/
theorem c3_multiply64_agrees_with_modular_multiply (hi lo : Nat)
    (hhi : hi < 4294967296) (hlo : lo < 4294967296) :
    (multiply64 hi lo).1 * 4294967296 + (multiply64 hi lo).2
      = (hi * 4294967296 + lo) * 2685821657736338717 % 18446744073709551616 := by
  obtain ⟨a0, a1, rfl, h0, h1⟩ : ∃ x y, hi = 65536 * x + y ∧ x < 65536 ∧ y < 65536 :=
    ⟨hi / 65536, hi % 65536, by omega, by omega, by omega⟩
  obtain ⟨a2, a3, rfl, h2, h3⟩ : ∃ x y, lo = 65536 * x + y ∧ x < 65536 ∧ y < 65536 :=
    ⟨lo / 65536, lo % 65536, by omega, by omega, by omega⟩
  have e0 : (65536 * a0 + a1) / 65536 % 65536 = a0 := by omega
  have e1 : (65536 * a0 + a1) % 65536 = a1 := by omega
  have e2 : (65536 * a2 + a3) / 65536 % 65536 = a2 := by omega
  have e3 : (65536 * a2 + a3) % 65536 = a3 := by omega
  have key : ((65536 * a0 + a1) * 4294967296 + (65536 * a2 + a3)) * 2685821657736338717
      = ((a0 * 56605 + a1 * 20332 + a2 * 62609 + a3 * 9541) * 281474976710656
          + (a1 * 56605 + a2 * 20332 + a3 * 62609) * 4294967296
          + (a2 * 56605 + a3 * 20332) * 65536
          + a3 * 56605)
        + 18446744073709551616 *
          ((a0 * 20332 + a1 * 62609 + a2 * 9541)
            + 65536 * (a0 * 62609 + a1 * 9541)
            + 4294967296 * (a0 * 9541)) := by ring
  simp only [multiply64, e0, e1, e2, e3, key, Nat.add_mul_mod_self_left]
  exact mul64carry_spec _ _ _ _

/-- Witness for C3 at the cipher's own key constant `0x2515606b4a7791cd`. -/
theorem c3_multiply64_witness :
    0x2515606b < 4294967296 ∧ 0x4a7791cd < 4294967296 ∧
    ((multiply64 0x2515606b 0x4a7791cd).1 * 4294967296 + (multiply64 0x2515606b 0x4a7791cd).2
      = (0x2515606b * 4294967296 + 0x4a7791cd) * 2685821657736338717 % 18446744073709551616) :=
  ⟨by decide, by decide,
    c3_multiply64_agrees_with_modular_multiply 0x2515606b 0x4a7791cd (by decide) (by decide)⟩


/-- Valid-base64-character test of `SanitizeBase64String`. -/
def isB64 (c : Char) : Bool :=
('A' ≤ c && c ≤ 'Z') || ('a' ≤ c && c ≤ 'z') || ('0' ≤ c && c ≤ '9') ||
  c == '+' || c == '/' || c == '='

/-- Model of `strings.TrimRight(s, "=")` on the character list. -/
def dropTrailingEq (l : List Char) : List Char :=
(l.reverse.dropWhile (· == '=')).reverse

def SanitizeBase64String (s : String) : String :=
  let cleaned := dropTrailingEq (s.toList.filter isB64)
  let m := cleaned.length % 4
  if 0 < m then String.mk (cleaned ++ List.replicate (4 - m) '=')
  else String.mk cleaned

theorem dropWhile_replicate_append (p : Char → Bool) (a : Char) (h : p a = true)
    (k : Nat) (t : List Char) :
    (List.replicate k a ++ t).dropWhile p = t.dropWhile p := by
  induction k with
  | zero => rfl
  | succ n ih => simp [List.replicate_succ, List.dropWhile_cons, h, ih]

theorem dropWhile_idem (p : Char → Bool) (l : List Char) :
    (l.dropWhile p).dropWhile p = l.dropWhile p := by
  induction l with
  | nil => rfl
  | cons a t ih =>
      by_cases h : p a = true
      · simp [List.dropWhile_cons, h, ih]
      · simp [List.dropWhile_cons, h]

theorem mem_dropTrailingEq {l : List Char} {x : Char} (hx : x ∈ dropTrailingEq l) : x ∈ l := by
  have h1 : x ∈ l.reverse.dropWhile (· == '=') := by
    simpa [dropTrailingEq] using hx
  have h2 : List.Sublist (l.reverse.dropWhile (· == '=')) l.reverse :=
    List.dropWhile_sublist _
  simpa using List.Sublist.mem h1 h2

theorem dropTrailingEq_pad (c : List Char) (hc : dropTrailingEq c = c) (k : Nat) :
    dropTrailingEq (c ++ List.replicate k '=') = c := by
  unfold dropTrailingEq
  rw [List.reverse_append, List.reverse_replicate,
    dropWhile_replicate_append _ _ (by decide)]
  have : c.reverse.dropWhile (· == '=') = c.reverse := by
    have := congrArg List.reverse hc
    simpa [dropTrailingEq] using this
  rw [this, List.reverse_reverse]

theorem dropTrailingEq_of_filtered (l : List Char) :
    dropTrailingEq (dropTrailingEq l) = dropTrailingEq l := by
  unfold dropTrailingEq
  rw [List.reverse_reverse, dropWhile_idem]

/-- C9: the base64 sanitizer is idempotent. -/
theorem c9_sanitize_idempotent (s : String) :
    SanitizeBase64String (SanitizeBase64String s) = SanitizeBase64String s := by
  unfold SanitizeBase64String
  set l := s.toList.filter isB64 with hl
  set c := dropTrailingEq l with hc
  have hmem : ∀ x ∈ c, isB64 x = true := by
    intro x hx
    exact List.of_mem_filter (mem_dropTrailingEq (hc ▸ hx))
  have hfix : dropTrailingEq c = c := by
    rw [hc, hl]
    exact dropTrailingEq_of_filtered _
  by_cases hm : 0 < c.length % 4
  · simp only [hm, if_pos]
    have htl : (String.mk (c ++ List.replicate (4 - c.length % 4) '=')).toList
        = c ++ List.replicate (4 - c.length % 4) '=' := rfl
    rw [htl]
    have hfilter : (c ++ List.replicate (4 - c.length % 4) '=').filter isB64
        = c ++ List.replicate (4 - c.length % 4) '=' := by
      rw [List.filter_eq_self]
      intro x hx
      rcases List.mem_append.mp hx with h | h
      · exact hmem x h
      · rw [List.eq_of_mem_replicate h]; decide
    rw [hfilter, dropTrailingEq_pad c hfix]
    simp only [hm, if_pos]
  · simp only [hm, if_neg, if_false]
    have htl : (String.mk c).toList = c := rfl
    rw [htl]
    have hfilter : c.filter isB64 = c := List.filter_eq_self.mpr hmem
    rw [hfilter, hfix]
    simp only [hm, if_neg, if_false]


/-- Model of Go `fmt` printing a nonnegative float with one fractional digit
(`%.1f`): round half to even at the tenths position.  Only the branch structure
of the formatter matters to the claims; the exact seconds value is carried
through unchanged. -/
def rheTenths (q : ℚ) : Nat :=
  let n := ⌊10 * q⌋₊
  let f := 10 * q - (n : ℚ)
  if 1/2 < f then n + 1 else if f < 1/2 then n else if n % 2 = 0 then n else n + 1

/-- Rendering of `%.1f` for a nonnegative rational. -/
def fmtF1 (q : ℚ) : String :=
  let t := rheTenths q
  toString (t / 10) ++ "." ++ toString (t % 10)

/-- Function `FormatExposureTime` of the helpers file: `float64` division of
32-bit integers is modelled exactly in `ℚ`; Go `int(x)` truncation of the
nonnegative `x` is `⌊x⌋₊`.  (For `num = 0 < den` the Go code converts `+Inf`
to `int`, which Go leaves implementation-defined; the claims only concern
`num ≥ 1`.) -/
def FormatExposureTime (num den : Nat) : String :=
  if den = 0 then "Invalid"
  else if den ≤ num then
    let seconds : ℚ := (num : ℚ) / (den : ℚ)
    if seconds = (⌊seconds⌋₊ : ℚ) then toString ⌊seconds⌋₊ ++ "s"
    else fmtF1 seconds ++ "s"
  else "1/" ++ toString ⌊(den : ℚ) / (num : ℚ) + 1/2⌋₊

/-- C6: for `den ≠ 0`: when `num ≥ den` the result is the whole number of
seconds followed by `"s"` exactly when `den` divides `num`, and the one-decimal
rendering otherwise; when `1 ≤ num < den` the result is `"1/"` followed by
`round-half-up(den/num)`, which equals `(2*den + num) / (2*num)` in integer
division. -/
theorem c6_format_exposure_time (num den : Nat) (hden : den ≠ 0) :
    (den ≤ num → den ∣ num → FormatExposureTime num den = toString (num / den) ++ "s")
  ∧ (den ≤ num → ¬ den ∣ num →
      FormatExposureTime num den = fmtF1 ((num : ℚ) / (den : ℚ)) ++ "s")
  ∧ (1 ≤ num → num < den →
      FormatExposureTime num den = "1/" ++ toString ((2 * den + num) / (2 * num))) := by
  have hdq : (den : ℚ) ≠ 0 := Nat.cast_ne_zero.mpr hden
  refine ⟨?_, ?_, ?_⟩
  · intro hge hdvd
    have hseq : (num : ℚ) / (den : ℚ) = ((num / den : Nat) : ℚ) :=
      (Nat.cast_div hdvd hdq).symm
    have hfl : ⌊(num : ℚ) / (den : ℚ)⌋₊ = num / den := by
      rw [hseq, Nat.floor_natCast]
    rw [FormatExposureTime, if_neg hden, if_pos hge, if_pos (by rw [hfl, ← hseq]), hfl]
  · intro hge hndvd
    have hne : (num : ℚ) / (den : ℚ) ≠ ((⌊(num : ℚ) / (den : ℚ)⌋₊ : Nat) : ℚ) := by
      intro h
      have : (num : ℚ) = ((⌊(num : ℚ) / (den : ℚ)⌋₊ : Nat) : ℚ) * (den : ℚ) :=
        (div_eq_iff hdq).mp h
      have hnat : num = ⌊(num : ℚ) / (den : ℚ)⌋₊ * den := by exact_mod_cast this
      exact hndvd ⟨_, by rw [hnat, Nat.mul_comm]⟩
    rw [FormatExposureTime, if_neg hden, if_pos hge, if_neg hne]
  · intro hnum hlt
    have hnq : (num : ℚ) ≠ 0 := Nat.cast_ne_zero.mpr (by omega)
    have hq : (den : ℚ) / (num : ℚ) + 1/2 = ((2 * den + num : Nat) : ℚ) / ((2 * num : Nat) : ℚ) := by
      push_cast
      field_simp
      ring
    have hfl : ⌊(den : ℚ) / (num : ℚ) + 1/2⌋₊ = (2 * den + num) / (2 * num) := by
      rw [hq, Nat.floor_div_eq_div]
    rw [FormatExposureTime, if_neg hden, if_neg (by omega), hfl]

/-- Witness for C6 at the spec's end-to-end instances `(1,500)` and `(2,1)`. -/
theorem c6_format_exposure_time_witness :
    FormatExposureTime 1 500 = "1/500" ∧ FormatExposureTime 2 1 = "2s" := by
  constructor
  · have h := (c6_format_exposure_time 1 500 (by decide)).2.2 (by decide) (by decide)
    rw [h]
    rfl
  · have h := (c6_format_exposure_time 2 1 (by decide)).1 (by decide) (by decide)
    rw [h]
    rfl

/-- Each 4-byte encoding has length 4. -/
theorem enc32_length (en : En) (n : Nat) : (enc32 en n).length = 4 := by
  cases en <;> rfl

/-- Decoding inverts the 4-byte encoding for 32-bit values. -/
theorem u32_enc32 (en : En) (n : Nat) (h : n < 4294967296) : u32 en (enc32 en n) = n := by
  cases en <;> simp [u32, enc32] <;> omega

/-- On a buffer holding a validly encoded rational at the given offset,
`getRational` (unsigned) checks the denominator and divides. -/
theorem getRational_at_encoding (en : En) (ts : Int) (pre suf : List Nat) (n d : Nat)
    (hn : n < 4294967296) (hd : d < 4294967296) :
    getRational ⟨pre ++ enc32 en n ++ enc32 en d ++ suf, ts, en⟩ ((pre.length : Nat) : Int) false
      = if d = 0 then 0 else (n : ℚ) / (d : ℚ) := by
  have hlen : (pre ++ enc32 en n ++ enc32 en d ++ suf).length
      = pre.length + (4 + (4 + suf.length)) := by
    simp [List.length_append, enc32_length]
  have hnum : subList (pre ++ enc32 en n ++ enc32 en d ++ suf) pre.length 4 = enc32 en n := by
    unfold subList
    simp only [List.append_assoc]
    rw [List.drop_left, List.take_left' (enc32_length en n)]
  have hden : subList (pre ++ enc32 en n ++ enc32 en d ++ suf) (pre.length + 4) 4
      = enc32 en d := by
    unfold subList
    have : pre ++ enc32 en n ++ enc32 en d ++ suf = (pre ++ enc32 en n) ++ (enc32 en d ++ suf) := by
      simp [List.append_assoc]
    rw [this]
    have hl : (pre ++ enc32 en n).length = pre.length + 4 := by
      simp [List.length_append, enc32_length]
    rw [← hl, List.drop_left, List.take_left' (enc32_length en d)]
  unfold getRational
  rw [if_neg]
  · simp only [Int.toNat_natCast, hnum, hden, u32_enc32 en n hn, u32_enc32 en d hd]
    by_cases h0 : d = 0
    · simp [h0]
    · have hq : ((d : ℚ)) ≠ 0 := Nat.cast_ne_zero.mpr h0
      simp [h0, hq]
  · rw [hlen]
    push_cast
    omega

/-- C7: the rational accessor returns 0 when the 8-byte read is out of range or
the decoded denominator is 0, and otherwise returns the numerator divided by
the denominator; decoding a validly encoded rational `(n, d)` with `d ≠ 0`
yields `n / d`. -/
theorem c7_getRational_spec :
    (∀ (e : ValueExtractor) (off : Int) (signed : Bool),
        (off < 0 ∨ off + 8 > (e.Data.length : Int)) → getRational e off signed = 0)
  ∧ (∀ (en : En) (ts : Int) (pre suf : List Nat) (n : Nat), n < 4294967296 →
        getRational ⟨pre ++ enc32 en n ++ enc32 en 0 ++ suf, ts, en⟩
          ((pre.length : Nat) : Int) false = 0)
  ∧ (∀ (en : En) (ts : Int) (pre suf : List Nat) (n d : Nat),
        n < 4294967296 → d < 4294967296 → d ≠ 0 →
        getRational ⟨pre ++ enc32 en n ++ enc32 en d ++ suf, ts, en⟩
          ((pre.length : Nat) : Int) false = (n : ℚ) / (d : ℚ)) := by
  refine ⟨?_, ?_, ?_⟩
  · intro e off signed h
    unfold getRational
    rw [if_pos h]
  · intro en ts pre suf n hn
    rw [getRational_at_encoding en ts pre suf n 0 hn (by decide)]
    simp
  · intro en ts pre suf n d hn hd h0
    rw [getRational_at_encoding en ts pre suf n d hn hd, if_neg h0]

/-- Witness for C7 at the spec's GPS latitude rational `(405000, 10000)`. -/
theorem c7_getRational_spec_witness :
    (405000 : Nat) < 4294967296 ∧ (10000 : Nat) ≠ 0 ∧
    getRational ⟨[] ++ enc32 .le 405000 ++ enc32 .le 10000 ++ [], 0, .le⟩
        ((List.length ([] : List Nat) : Nat) : Int) false = (405000 : ℚ) / (10000 : ℚ) :=
  ⟨by decide, by decide,
    c7_getRational_spec.2.2 .le 0 [] [] 405000 10000 (by decide) (by decide) (by decide)⟩

/-- Byte values of the literal marker "http://ns.adobe.com/xap/1.0/" followed
by a NUL, as in `ExtractXMPData`. -/
def xmpHeaderBytes : List Nat :=
("http://ns.adobe.com/xap/1.0/".toList.map Char.toNat) ++ [0]

/-- Byte values of the literal closing tag of the XMP packet. -/
def xmpCloseBytes : List Nat :=
"</x:xmpmeta>".toList.map Char.toNat

/-- Go `strings.TrimLeft(s, cutset)`: drop leading bytes that belong to the
cutset, which is a character SET, not a literal string to remove once. -/
def goTrimLeftCut (l cutset : List Nat) : List Nat :=
l.dropWhile (fun b => cutset.contains b)

/-- Function `ExtractXMPData` (`valueextractor.go` lines 298-318): scan for the
first marker occurrence (the outer loop runs `i < len(data) - 29`), then scan
forward for the closing tag (`end < len(data) - 11`); on success the source
returns `strings.TrimLeft(string(data[start:end]), xmpHeader)` where `start`
is the marker START and the marker string is used as a trim cutset. -/
def ExtractXMPData (data : List Nat) : Except String (List Nat) :=
  match (List.range (data.length - xmpHeaderBytes.length)).find?
      (fun i => subList data i 29 == xmpHeaderBytes) with
  | none => .error "XMP block not found"
  | some start =>
    match (List.range' start (data.length - 11 - start)).find?
        (fun e => subList data e 12 == xmpCloseBytes) with
    | none => .error "XMP end tag not found"
    | some e => .ok (goTrimLeftCut (subList data start (e + 12 - start)) xmpHeaderBytes)

/-- Buffer consisting of the marker, one content byte `'a'`, and the closing tag. -/
def c8Input : List Nat := xmpHeaderBytes ++ [97] ++ xmpCloseBytes

/-- C8: the claim says the extractor returns exactly the byte span between the
end of the marker and the end of the closing tag, unmodified — here
`'a' :: "</x:xmpmeta>"`.  Because the source uses `strings.TrimLeft` with the
marker as a cutset, the leading `'a'` (a character of the marker set) is also
stripped: the code returns only `"</x:xmpmeta>"`. -/
theorem c8_xmp_trimleft_strips_spanned_bytes :
    ExtractXMPData c8Input = .ok xmpCloseBytes ∧
    xmpCloseBytes ≠ [97] ++ xmpCloseBytes := by
  constructor
  · rfl
  · decide

/-- Function `findAPP1Segment` (`app1.go` lines 38-51): requires the JPEG
start-of-image marker `0xFFD8` at the front, then returns the index of the
first `0xFF 0xE1` pair, scanning `i < len(data) - 1`. -/
def findAPP1Segment (data : List Nat) : Except String Int :=
  if data.length < 2 ∨ data.getD 0 0 ≠ 255 ∨ data.getD 1 0 ≠ 216 then
    .error "file is not a JPEG"
  else
    match (List.range (data.length - 1)).find?
        (fun i => data.getD i 0 == 255 && data.getD (i + 1) 0 == 225) with
    | some i => .ok (i : Int)
    | none => .error "cannot find EXIF block"

/-- Function `DetermineEndianess` (`app1.go` lines 53-60): reads
`data[offset+10]` and `data[offset+11]` with no bounds check (a `none` result
models the panic).  Go short-circuit evaluation reads index `offset+11` only
when `data[offset+10]` is `'I'` or `'M'`. -/
def DetermineEndianess (data : List Nat) (offset : Int) : Option (Except String En) :=
  match byteAt data (offset + 10) with
  | none => none
  | some b10 =>
    if b10 = 73 ∨ b10 = 77 then
      match byteAt data (offset + 11) with
      | none => none
      | some b11 =>
        if b10 = 73 ∧ b11 = 73 then some (.ok .le)
        else if b10 = 77 ∧ b11 = 77 then some (.ok .be)
        else some (.error "unsupported byte order")
    else some (.error "unsupported byte order")

/-- Outcome of the header phase of `ExtractExifData`: `fatal` is the
`(nil, error)` return, `panicked` an out-of-range runtime panic, `ok` reaching
the entry loop. -/
inductive HeaderResult where
| fatal (msg : String)
| panicked
| ok (tiffStart : Int) (endian : En) (firstIfdIndex : Int) (entryCount : Nat)
deriving DecidableEq, Repr

/-- Header phase of `ExtractExifData` (`app1.go` lines 62-83): locate APP1,
determine endianness, read the first-IFD offset at `tiffStart+4` and the entry
count — both unchecked slices in the source.  After this point the source
function never returns a nil record. -/
def ExtractExifDataHeader (data : List Nat) : HeaderResult :=
  match findAPP1Segment data with
  | .error e => .fatal e
  | .ok offset =>
    match DetermineEndianess data offset with
    | none => .panicked
    | some (.error e) => .fatal e
    | some (.ok endian) =>
      let tiffStart := offset + 10
      match sliceAt data (tiffStart + 4) (tiffStart + 8) with
      | none => .panicked
      | some bs =>
        let ifdOffset := u32 endian bs
        let firstIfdIndex := tiffStart + (ifdOffset : Int)
        match sliceAt data firstIfdIndex (firstIfdIndex + 2) with
        | none => .panicked
        | some bs2 => .ok tiffStart endian firstIfdIndex (u16 endian bs2)

/-- C4: the claim says `ExtractExifData` returns a nil record with an error
exactly for the three fatal conditions, and a non-nil record on every other
input.  The four-byte buffer `FF D8 FF E1` passes the JPEG and APP1 checks,
yet the code then indexes `data[12]`/`data[13]` (byte-order marker) out of
range and panics — it neither returns a fatal `(nil, error)` nor any record. -/
theorem c4_extract_exif_panics_after_valid_markers :
    findAPP1Segment [255, 216, 255, 225] = .ok 2 ∧
    ExtractExifDataHeader [255, 216, 255, 225] = .panicked := by
  constructor
  · rfl
  · rfl

/-- One key-schedule step of `DecryptHDRPBytes` (`google.go` lines 146-160):
three xorshift folds across the 32-bit halves followed by `multiply64`.
All intermediate values stay below `2^32`, so the Go `uint32` operations
are exact on `Nat`. -/
def keyStep (hi lo : Nat) : Nat × Nat :=
  let lo1 := lo ^^^ (lo >>> 12 ||| (hi &&& 0xfff) <<< 20)
  let hi1 := hi ^^^ hi >>> 12
  let hi2 := hi1 ^^^ ((hi1 &&& 0x7f) <<< 25 ||| lo1 >>> 7)
  let lo2 := lo1 ^^^ (lo1 &&& 0x7f) <<< 25
  let lo3 := lo2 ^^^ (lo2 >>> 27 ||| (hi2 &&& 0x7ffffff) <<< 5)
  let hi3 := hi2 ^^^ hi2 >>> 27
  multiply64 hi3 lo3

/-- Little-endian 32-bit word packing of `binary.Read(..., &words)`; the source
reads `len(data)/4` words, so a trailing chunk shorter than 4 bytes is dropped
(never present: the padded input length is a multiple of 8). -/
def bytesToWords : List Nat → List Nat
| b0 :: b1 :: b2 :: b3 :: rest =>
    (b0 + 256 * (b1 + 256 * (b2 + 256 * b3))) :: bytesToWords rest
| _ => []

/-- Little-endian unpacking of `binary.Write` for a `[]uint32`. -/
def wordsToBytes : List Nat → List Nat
| [] => []
| w :: rest => w % 256 :: w / 256 % 256 :: w / 65536 % 256 :: w / 16777216 % 256 :: wordsToBytes rest

/-- The per-block loop of `DecryptHDRPBytes` (lines 144-165): advance the key,
then XOR `words[i] ^= lo` and `words[i+1] ^= hi`. -/
def encryptWords (k : Nat × Nat) : List Nat → List Nat
| w0 :: w1 :: rest =>
    let k2 := keyStep k.1 k.2
    (w0 ^^^ k2.2) :: (w1 ^^^ k2.1) :: encryptWords k2 rest
| l => l

def hdrpInitHi : Nat := 0x2515606b
def hdrpInitLo : Nat := 0x4a7791cd

/-- Function `DecryptHDRPBytes` (`google.go` lines 121-180): zero-pad to 8-byte
alignment, XOR each 64-bit block against the evolving key, strip the padding
from the tail.  The `binary.Read`/`binary.Write` calls on in-memory buffers of
exactly matching size never fail, so the `error` result is always nil and is
not modelled. -/
def DecryptHDRPBytes (data : List Nat) : List Nat :=
  let pad := (8 - data.length % 8) % 8
  let padded := data ++ List.replicate pad 0
  let words := bytesToWords padded
  let enc := encryptWords (hdrpInitHi, hdrpInitLo) words
  let out := wordsToBytes enc
  if 0 < pad then out.take (out.length - pad) else out

/-- Key words XORed into successive blocks: block `i` uses the key after
`i+1` steps; the low half hits the even word, the high half the odd word. -/
def ksWords (k : Nat × Nat) : Nat → List Nat
| 0 => []
| n + 1 =>
    let k2 := keyStep k.1 k.2
    k2.2 :: k2.1 :: ksWords k2 n

/-- The byte-level keystream for `n` blocks. -/
def ksBytes (k : Nat × Nat) (n : Nat) : List Nat := wordsToBytes (ksWords k n)

theorem ksWords_length (k : Nat × Nat) (n : Nat) : (ksWords k n).length = 2 * n := by
  induction n generalizing k with
  | zero => rfl
  | succ m ih => simp [ksWords, ih]; ring

theorem wordsToBytes_length (ws : List Nat) : (wordsToBytes ws).length = 4 * ws.length := by
  induction ws with
  | nil => rfl
  | cons w t ih => simp [wordsToBytes, ih]; ring

theorem wordsToBytes_lt (ws : List Nat) : ∀ x ∈ wordsToBytes ws, x < 256 := by
  induction ws with
  | nil => simp [wordsToBytes]
  | cons w t ih =>
      intro x hx
      simp only [wordsToBytes, List.mem_cons] at hx
      rcases hx with rfl | rfl | rfl | rfl | h
      · omega
      · omega
      · omega
      · omega
      · exact ih x h

theorem list_four_step_induction {P : List Nat → Prop} (h0 : P []) (h1 : ∀ a, P [a])
    (h2 : ∀ a b, P [a, b]) (h3 : ∀ a b c, P [a, b, c])
    (h4 : ∀ a b c d t, P t → P (a :: b :: c :: d :: t)) : ∀ l, P l
| [] => h0
| [a] => h1 a
| [a, b] => h2 a b
| [a, b, c] => h3 a b c
| a :: b :: c :: d :: t => h4 a b c d t (list_four_step_induction h0 h1 h2 h3 h4 t)

theorem list_two_step_induction {P : List Nat → Prop} (h0 : P []) (h1 : ∀ a, P [a])
    (h2 : ∀ a b t, P t → P (a :: b :: t)) : ∀ l, P l
| [] => h0
| [a] => h1 a
| a :: b :: t => h2 a b t (list_two_step_induction h0 h1 h2 t)

theorem bytesToWords_length (l : List Nat) : (bytesToWords l).length = l.length / 4 := by
  induction l using list_four_step_induction with
  | h0 => rfl
  | h1 a => simp [bytesToWords]
  | h2 a b => simp [bytesToWords]
  | h3 a b c => simp [bytesToWords]
  | h4 a b c d t ih => simp [bytesToWords, ih]; omega

theorem wordsToBytes_bytesToWords (l : List Nat) (hlen : l.length % 4 = 0)
    (hb : ∀ x ∈ l, x < 256) : wordsToBytes (bytesToWords l) = l := by
  induction l using list_four_step_induction with
  | h0 => rfl
  | h1 a => simp at hlen
  | h2 a b => simp at hlen
  | h3 a b c => simp at hlen
  | h4 a b c d t ih =>
      have ha : a < 256 := hb a (by simp)
      have hbb : b < 256 := hb b (by simp)
      have hc : c < 256 := hb c (by simp)
      have hd : d < 256 := hb d (by simp)
      have ht : ∀ x ∈ t, x < 256 := fun x hx => hb x (by simp [hx])
      have htl : t.length % 4 = 0 := by simp [List.length_cons] at hlen; omega
      have e1 : (a + 256 * (b + 256 * (c + 256 * d))) % 256 = a := by omega
      have e2 : (a + 256 * (b + 256 * (c + 256 * d))) / 256 % 256 = b := by omega
      have e3 : (a + 256 * (b + 256 * (c + 256 * d))) / 65536 % 256 = c := by omega
      have e4 : (a + 256 * (b + 256 * (c + 256 * d))) / 16777216 % 256 = d := by omega
      simp only [bytesToWords, wordsToBytes, ih htl ht, e1, e2, e3, e4]

theorem xor_div_pow_mod256 (x y j : Nat) :
    (x ^^^ y) / 2 ^ j % 256 = (x / 2 ^ j % 256) ^^^ (y / 2 ^ j % 256) := by
  have hdiv : (x ^^^ y) / 2 ^ j = x / 2 ^ j ^^^ y / 2 ^ j := by
    have := congrArg (fun z => z) (rfl : (x ^^^ y) >>> j = (x ^^^ y) >>> j)
    have hsh : (x ^^^ y) >>> j = (x >>> j) ^^^ (y >>> j) := by
      apply Nat.eq_of_testBit_eq
      intro i
      simp [Nat.testBit_shiftRight, Nat.testBit_xor]
    simpa [Nat.shiftRight_eq_div_pow] using hsh
  have hmod : ∀ a b : Nat, (a ^^^ b) % 256 = (a % 256) ^^^ (b % 256) := by
    intro a b
    have h8 : (256 : Nat) = 2 ^ 8 := by norm_num
    rw [h8]
    apply Nat.eq_of_testBit_eq
    intro i
    simp only [Nat.testBit_mod_two_pow, Nat.testBit_xor]
    by_cases h : i < 8 <;> simp [h]
  rw [hdiv, hmod]

theorem xor_mod256 (x y : Nat) : (x ^^^ y) % 256 = (x % 256) ^^^ (y % 256) := by
  have := xor_div_pow_mod256 x y 0
  simpa using this

theorem wordsToBytes_zipWith (ws ks : List Nat) (hlen : ws.length = ks.length) :
    wordsToBytes (List.zipWith (· ^^^ ·) ws ks)
      = List.zipWith (· ^^^ ·) (wordsToBytes ws) (wordsToBytes ks) := by
  induction ws generalizing ks with
  | nil => simp [wordsToBytes]
  | cons w t ih =>
      cases ks with
      | nil => simp at hlen
      | cons k kt =>
          have h8 : (x : Nat) → (y : Nat) → (x ^^^ y) / 256 % 256 = (x / 256 % 256) ^^^ (y / 256 % 256) := by
            intro x y
            have := xor_div_pow_mod256 x y 8
            norm_num at this
            exact this
          have h16 : (x : Nat) → (y : Nat) → (x ^^^ y) / 65536 % 256 = (x / 65536 % 256) ^^^ (y / 65536 % 256) := by
            intro x y
            have := xor_div_pow_mod256 x y 16
            norm_num at this
            exact this
          have h24 : (x : Nat) → (y : Nat) → (x ^^^ y) / 16777216 % 256 = (x / 16777216 % 256) ^^^ (y / 16777216 % 256) := by
            intro x y
            have := xor_div_pow_mod256 x y 24
            norm_num at this
            exact this
          simp only [List.zipWith_cons_cons, wordsToBytes, ih kt (by simpa using hlen),
            xor_mod256, h8 w k, h16 w k, h24 w k]

theorem encryptWords_eq_zip (ws : List Nat) :
    ∀ k : Nat × Nat, ws.length % 2 = 0 →
      encryptWords k ws = List.zipWith (· ^^^ ·) ws (ksWords k (ws.length / 2)) := by
  induction ws using list_two_step_induction with
  | h0 => intro k h; rfl
  | h1 a => intro k h; simp at h
  | h2 a b t ih =>
      intro k h
      have ht : t.length % 2 = 0 := by simp [List.length_cons] at h; omega
      have hlen : (a :: b :: t).length / 2 = t.length / 2 + 1 := by
        simp [List.length_cons]; omega
      simp only [encryptWords, hlen, ksWords, List.zipWith_cons_cons, ih _ ht]

theorem zip_take_right (f : Nat → Nat → Nat) (y ks : List Nat) :
    List.zipWith f y (ks.take y.length) = List.zipWith f y ks := by
  induction y generalizing ks with
  | nil => simp
  | cons a t ih =>
      cases ks with
      | nil => simp
      | cons k kt => simp [List.take_cons, ih kt]

theorem zip_xor_cancel (y : List Nat) : ∀ ks : List Nat, y.length ≤ ks.length →
    List.zipWith (· ^^^ ·) (List.zipWith (· ^^^ ·) y ks) ks = y := by
  induction y with
  | nil => intro ks h; simp
  | cons a t ih =>
      intro ks h
      cases ks with
      | nil => simp at h
      | cons k kt =>
          simp only [List.zipWith_cons_cons, Nat.xor_cancel_right]
          rw [ih kt (by simpa using h)]

theorem mem_zip_xor_lt (y ks : List Nat) (hy : ∀ x ∈ y, x < 256) (hk : ∀ x ∈ ks, x < 256) :
    ∀ x ∈ List.zipWith (· ^^^ ·) y ks, x < 256 := by
  induction y generalizing ks with
  | nil => simp
  | cons a t ih =>
      cases ks with
      | nil => simp
      | cons k kt =>
          intro x hx
          simp only [List.zipWith_cons_cons, List.mem_cons] at hx
          rcases hx with rfl | hx
          · have h8 : (256 : Nat) = 2 ^ 8 := by norm_num
            rw [h8]
            exact Nat.xor_lt_two_pow (by simpa [h8] using hy a (by simp))
              (by simpa [h8] using hk k (by simp))
          · exact ih kt (fun z hz => hy z (by simp [hz])) (fun z hz => hk z (by simp [hz])) x hx

theorem decrypt_as_zip (y : List Nat) (hy : ∀ x ∈ y, x < 256) :
    DecryptHDRPBytes y = List.zipWith (· ^^^ ·) y
      (ksBytes (hdrpInitHi, hdrpInitLo) ((y.length + (8 - y.length % 8) % 8) / 8)) := by
  have hpadv : (8 - y.length % 8) % 8 = (8 - y.length % 8) % 8 := rfl
  set L := y.length with hL
  set pad := (8 - L % 8) % 8 with hpad
  set n := (L + pad) / 8 with hn
  set padded := y ++ List.replicate pad 0 with hpadded
  have hplen : padded.length = L + pad := by
    simp [hpadded, List.length_append, List.length_replicate]
  have hmod8 : (L + pad) % 8 = 0 := by omega
  have hpb : ∀ x ∈ padded, x < 256 := by
    intro x hx
    rcases List.mem_append.mp (hpadded ▸ hx) with h | h
    · exact hy x h
    · rw [List.eq_of_mem_replicate h]; omega
  have hwlen : (bytesToWords padded).length = (L + pad) / 4 := by
    rw [bytesToWords_length, hplen]
  have heven : (bytesToWords padded).length % 2 = 0 := by omega
  have hhalf : (bytesToWords padded).length / 2 = n := by omega
  have hkslen : (ksWords (hdrpInitHi, hdrpInitLo) n).length = 2 * n := ksWords_length _ _
  have hzip1 : encryptWords (hdrpInitHi, hdrpInitLo) (bytesToWords padded)
      = List.zipWith (· ^^^ ·) (bytesToWords padded) (ksWords (hdrpInitHi, hdrpInitLo) n) := by
    rw [encryptWords_eq_zip _ _ heven, hhalf]
  have hzip2 : wordsToBytes (encryptWords (hdrpInitHi, hdrpInitLo) (bytesToWords padded))
      = List.zipWith (· ^^^ ·) padded (ksBytes (hdrpInitHi, hdrpInitLo) n) := by
    rw [hzip1, wordsToBytes_zipWith _ _ (by omega), ksBytes,
      wordsToBytes_bytesToWords padded (by omega) hpb]
  have houtlen : (wordsToBytes (encryptWords (hdrpInitHi, hdrpInitLo) (bytesToWords padded))).length
      = L + pad := by
    rw [hzip2, List.length_zipWith, hplen, ksBytes, wordsToBytes_length, hkslen]
    omega
  show (if 0 < pad then
      (wordsToBytes (encryptWords (hdrpInitHi, hdrpInitLo) (bytesToWords padded))).take
        ((wordsToBytes (encryptWords (hdrpInitHi, hdrpInitLo) (bytesToWords padded))).length - pad)
    else wordsToBytes (encryptWords (hdrpInitHi, hdrpInitLo) (bytesToWords padded))) = _
  by_cases h0 : 0 < pad
  · rw [if_pos h0, houtlen, hzip2]
    have hLsub : L + pad - pad = L := by omega
    rw [hLsub, List.take_zipWith]
    have htakey : padded.take L = y := by
      rw [hpadded, hL]
      exact List.take_left y _
    rw [htakey, hL, zip_take_right]
  · rw [if_neg h0, hzip2]
    have hp0 : pad = 0 := by omega
    rw [hpadded, hp0]
    simp

/-- C10: `DecryptHDRPBytes` is a length-preserving involution on byte
sequences of any length. -/
theorem c10_decrypt_involution (b : List Nat) (hb : ∀ x ∈ b, x < 256) :
    (DecryptHDRPBytes b).length = b.length ∧
    DecryptHDRPBytes (DecryptHDRPBytes b) = b := by
  set n := (b.length + (8 - b.length % 8) % 8) / 8 with hn
  have hks_lt : ∀ x ∈ ksBytes (hdrpInitHi, hdrpInitLo) n, x < 256 := wordsToBytes_lt _
  have hks_len : (ksBytes (hdrpInitHi, hdrpInitLo) n).length = 8 * n := by
    rw [ksBytes, wordsToBytes_length, ksWords_length]
    ring
  have hble : b.length ≤ (ksBytes (hdrpInitHi, hdrpInitLo) n).length := by
    rw [hks_len]
    omega
  have h1 : DecryptHDRPBytes b
      = List.zipWith (· ^^^ ·) b (ksBytes (hdrpInitHi, hdrpInitLo) n) := decrypt_as_zip b hb
  have hlen1 : (DecryptHDRPBytes b).length = b.length := by
    rw [h1, List.length_zipWith]
    omega
  refine ⟨hlen1, ?_⟩
  have hb2 : ∀ x ∈ DecryptHDRPBytes b, x < 256 := by
    rw [h1]
    exact mem_zip_xor_lt b _ hb hks_lt
  have h2 := decrypt_as_zip (DecryptHDRPBytes b) hb2
  rw [hlen1] at h2
  rw [h2, h1, zip_xor_cancel b _ hble]

/-- Witness for C10 on a 3-byte input (length not a multiple of 8). -/
theorem c10_decrypt_involution_witness :
    (∀ x ∈ [72, 68, 82], x < 256) ∧
    (DecryptHDRPBytes [72, 68, 82]).length = 3 ∧
    DecryptHDRPBytes (DecryptHDRPBytes [72, 68, 82]) = [72, 68, 82] :=
  ⟨by decide, (c10_decrypt_involution [72, 68, 82] (by decide)).1,
    (c10_decrypt_involution [72, 68, 82] (by decide)).2⟩

/-- Values stored in the `map[string]interface{}` of a parsed MakerNote. -/
inductive AVal where
| b (v : Bool)
| i (v : Int)
| n (v : Nat)
| s (v : String)
| q (v : ℚ)
| qv (v : List ℚ)
deriving DecidableEq

/-- Go map assignment `m[k] = v` on an association-list representation. -/
def mapSet (m : List (String × AVal)) (k : String) (v : AVal) : List (String × AVal) :=
(m.filter (fun p => p.1 != k)) ++ [(k, v)]

/-- Model of `fmt` `%q` for the byte ranges the error paths print (printable
ASCII): wrap in double quotes. -/
def goQuote (l : List Nat) : String :=
"\"" ++ strOfBytes l ++ "\""

/-- Left-pad a natural number with zeros to the given width. -/
def natToStringPad (width n : Nat) : String :=
(String.mk (List.replicate (width - (toString n).length) '0')) ++ toString n

/-- Model of `fmt` fixed-point float formatting (`%.2f`, `%f`) on the exact
rational value: scale, round to nearest (ties rounded up here; the Go
half-even tie case never matters to any claim below), and print. -/
def fmtFixed (digits : Nat) (q : ℚ) : String :=
  let n : Int := round (q * (10 : ℚ) ^ digits)
  (if n < 0 then "-" else "") ++ toString (n.natAbs / 10 ^ digits) ++ "." ++
    natToStringPad digits (n.natAbs % 10 ^ digits)

/-- Function `ParseIFDEntry` of the helpers file: four unchecked slices
(`none` models the panic). -/
def ParseIFDEntry (data : List Nat) (offset : Int) (en : En) : Option IFDEntry :=
  match sliceAt data offset (offset + 2), sliceAt data (offset + 2) (offset + 4),
      sliceAt data (offset + 4) (offset + 8), sliceAt data (offset + 8) (offset + 12) with
  | some t, some dt, some c, some v => some ⟨u16 en t, u16 en dt, u32 en c, u32 en v⟩
  | _, _, _, _ => none

/-- The magic bytes "Apple iOS\x00\x00\x01" checked by `AppleParser.Parse`. -/
def appleMagic : List Nat :=
("Apple iOS".toList.map Char.toNat) ++ [0, 0, 1]

/-- The raw MakerNote byte range fetched at the top of `AppleParser.Parse`
(`apple.go` line 17). -/
def appleRawOf (e : ValueExtractor) (entry : IFDEntry) : List Nat :=
GetByteArray e entry (e.TiffStart + (entry.ValueOffset : Int))

/-- One iteration of the tag switch of `AppleParser.Parse` (`apple.go` lines
85-208).  `none` models a panic escaping from an accessor (`GetString` is the
only fallible one used here). -/
def appleEntryStep (mn : ValueExtractor) (entriesStart : Int)
    (parsed : List (String × AVal)) (j : Nat) : Option (List (String × AVal)) :=
  let entryOffset := entriesStart + 12 * (j : Int)
  match ParseIFDEntry mn.Data entryOffset mn.Endian with
  | none => none
  | some entry =>
    match entry.Tag with
    | 0x0001 => some (mapSet parsed "MakerNoteVersion" (.i (i32 (GetUint32 mn entryOffset))))
    | 0x0003 => some parsed
    | 0x0004 => some (mapSet parsed "AEStable" (.b (GetUint32 mn entryOffset == 1)))
    | 0x0005 => some (mapSet parsed "AETarget" (.n (GetUint32 mn entryOffset)))
    | 0x0006 => some (mapSet parsed "AEAverage" (.n (GetUint32 mn entryOffset)))
    | 0x0007 => some (mapSet parsed "AFStable" (.b (GetUint32 mn entryOffset == 1)))
    | 0x0008 =>
        some (mapSet parsed "AccelerationVector"
          (.qv [GetRational mn entry 0 true, GetRational mn entry 8 true,
                GetRational mn entry 16 true]))
    | 0x000a =>
        some (mapSet parsed "HDRImageType"
          (.s (match GetUint32 mn entryOffset with
               | 3 => "HDR Image"
               | 4 => "Original Image"
               | _ => "Unknown")))
    | 0x000b => (GetString mn entry entryOffset).map (fun s => mapSet parsed "BurstUUID" (.s s))
    | 0x000c =>
        some (mapSet parsed "FocusDistanceRange"
          (.s (fmtFixed 2 (GetRational mn entry 0 true) ++ " - " ++
               fmtFixed 2 (GetRational mn entry 8 true) ++ " m")))
    | 0x000f => some (mapSet parsed "OISMode" (.i (i32 (GetUint32 mn entryOffset))))
    | 0x0011 =>
        (GetString mn entry entryOffset).map (fun s => mapSet parsed "ContentIdentifier" (.s s))
    | 0x0014 =>
        some (mapSet parsed "ImageCaptureType"
          (.s (if i32 (GetUint32 mn entryOffset) = 1 then "ProRAW"
               else if i32 (GetUint32 mn entryOffset) = 2 then "Portrait"
               else if i32 (GetUint32 mn entryOffset) = 10 then "Photo"
               else if i32 (GetUint32 mn entryOffset) = 11 then "Manual Focus"
               else if i32 (GetUint32 mn entryOffset) = 12 then "Scene"
               else "Unknown Value")))
    | 0x0015 =>
        (GetString mn entry entryOffset).map (fun s => mapSet parsed "ImageUniqueID" (.s s))
    | 0x0017 => some parsed
    | 0x0019 => some (mapSet parsed "ImageProcessingFlags" (.i (i32 (GetUint32 mn entryOffset))))
    | 0x001a =>
        (GetString mn entry entryOffset).map (fun s => mapSet parsed "QualityHint" (.s s))
    | 0x001d => some (mapSet parsed "LuminanceNoiseAmplitude" (.q (GetRational mn entry 0 true)))
    | 0x001f => some (mapSet parsed "PhotosAppFeatureFlags" (.i (i32 (GetUint32 mn entryOffset))))
    | 0x0020 =>
        (GetString mn entry entryOffset).map
          (fun s => mapSet parsed "ImageCaptureRequestID" (.s s))
    | 0x0021 => some (mapSet parsed "HDRHeadroom" (.q (GetRational mn entry 0 true)))
    | 0x0023 =>
        let values := GetUint32Array mn entry 2
        if h : values.length = 2 then
          let fd := i32 (values.get ⟨0, by omega⟩)
          let pv := i32 (values.get ⟨1, by omega⟩)
          some (mapSet parsed "AFPerformance"
            (.s (toString fd ++ " " ++ toString (pv.fdiv 268435456 % 16) ++ " " ++
                 toString (pv % 268435456))))
        else some parsed
    | 0x0025 => some (mapSet parsed "SceneFlags" (.i (i32 (GetUint32 mn entryOffset))))
    | 0x0027 => some (mapSet parsed "SignalToNoiseRatio" (.q (GetRational mn entry 0 true)))
    | 0x002b =>
        (GetString mn entry entryOffset).map (fun s => mapSet parsed "PhotoIdentifier" (.s s))
    | 0x002d => some (mapSet parsed "ColorTemperature" (.i (i32 (GetUint32 mn entryOffset))))
    | 0x002e =>
        some (mapSet parsed "CameraType"
          (.s (if i32 (GetUint32 mn entryOffset) = 0 then "Back Wide Angle"
               else if i32 (GetUint32 mn entryOffset) = 1 then "Back Normal"
               else if i32 (GetUint32 mn entryOffset) = 6 then "Front"
               else "Unknown")))
    | 0x002f => some (mapSet parsed "FocusPosition" (.i (i32 (GetUint32 mn entryOffset))))
    | 0x0030 => some (mapSet parsed "HDRGain" (.q (GetRational mn entry 0 true)))
    | 0x0038 => some (mapSet parsed "AFMeasuredDepth" (.i (i32 (GetUint32 mn entryOffset))))
    | 0x003d => some (mapSet parsed "AFConfidence" (.i (i32 (GetUint32 mn entryOffset))))
    | _ => some parsed

/-- Outcome of one vendor parser: the Go pair `(*map, error)` restricted to
the shapes `AppleParser.Parse` produces, plus `noMatch` for the `(nil, nil)`
"not matched" signal of the `Parser` interface and `panicked` for a runtime
panic. -/
inductive MNOutcome where
| panicked
| failed (msg : String)
| matched (fields : List (String × AVal))
| noMatch
deriving DecidableEq

/-- `AppleParser.Parse` (`apple.go` lines 16-211): fetch the raw range, check
the minimum size, check the magic bytes (a mismatch returns an ERROR, not the
`(nil, nil)` not-matched signal), read the nested TIFF endianness at offset 2
(bytes 12/13), clamp the declared entry count to the available range, then
walk the entries.  The success path always returns a non-nil map. -/
def appleParse (e : ValueExtractor) (entry : IFDEntry) : MNOutcome :=
  let raw := appleRawOf e entry
  if raw.length < 22 then
    .failed ("apple makernote too short length: " ++ toString raw.length ++ ", minimum: 22")
  else if raw.take 12 ≠ appleMagic then
    .failed ("incorrect prefix, expected Apple iOS, got: " ++ goQuote (raw.take 12))
  else
    match DetermineEndianess raw 2 with
    | none => .panicked
    | some (.error msg) => .failed msg
    | some (.ok mnEndian) =>
      if (14 : Int) + 2 > (raw.length : Int) then
        .failed ("IFD position out of bounds, pos: 14, dataLength: " ++ toString raw.length)
      else
        match sliceAt raw 14 16 with
        | none => .panicked
        | some bs =>
          let entryCount0 := u16 mnEndian bs
          let entryCount :=
            if (16 + (entryCount0 * 12 : Nat) : Int) > (raw.length : Int) then
              ((raw.length - 16) / 12) % 65536
            else entryCount0
          let mnHelper : ValueExtractor := ⟨raw, 0, mnEndian⟩
          match (List.range entryCount).foldlM (appleEntryStep mnHelper 16) [] with
          | none => .panicked
          | some parsed => .matched parsed

/-- A vendor parser of the `makernotes.Parser` interface. -/
structure MNParser where
  manufacturer : String
  parse : ValueExtractor → IFDEntry → MNOutcome

/-- The Apple parser. -/
def appleParser : MNParser := ⟨"Apple", appleParse⟩

/-- The Go triple `(string, *map, error)` returned by `DetectAndParse`. -/
inductive DispatchResult where
| panicked
| res (manufacturer : String) (parsed : Option (List (String × AVal))) (err : Option String)
deriving DecidableEq

/-- The dispatch loop of `DetectAndParse` (`parser.go` lines 19-26): a parser
returning a non-nil map with nil error wins; a parser returning a non-nil
ERROR makes the loop return immediately with that parser's manufacturer; only
the `(nil, nil)` signal moves on to the next candidate. -/
def dispatchLoop (e : ValueExtractor) (entry : IFDEntry) : List MNParser → DispatchResult
| [] => .res "Unknown" none (some "cannot parse makernote, corrupted or unsupported")
| p :: rest =>
  match p.parse e entry with
  | .panicked => .panicked
  | .matched m => .res p.manufacturer (some m) none
  | .failed msg => .res p.manufacturer none (some msg)
  | .noMatch => dispatchLoop e entry rest

/-- `DetectAndParse` with its hard-coded parser list `[&AppleParser{}]`. -/
def DetectAndParse (e : ValueExtractor) (entry : IFDEntry) : DispatchResult :=
dispatchLoop e entry [appleParser]

/-- C2 counterexample: a 22-byte MakerNote of `'A'` bytes fails the Apple
magic check, and `DetectAndParse` returns the manufacturer "Apple" with a hard
error — it does NOT treat the mismatch as a not-matched signal, does not move
to a next candidate, and does not surface "Unknown". -/
theorem c2_counterexample :
    DetectAndParse ⟨List.replicate 22 65, 0, .le⟩ ⟨0x927c, 7, 22, 0⟩
      = .res "Apple" none
          (some "incorrect prefix, expected Apple iOS, got: \"AAAAAAAAAAAA\"") ∧
    "Apple" ≠ "Unknown" := by
  constructor
  · rfl
  · decide

/-- C2 (amended): a vendor parser whose magic-prefix validation fails returns
a hard error, and `DetectAndParse` stops at once, surfacing that parser's
manufacturer string together with the error (never a panic on these paths);
the "Unknown"+error fallback is reached only when every parser yields the
`(nil, nil)` not-matched signal. -/
theorem c2_prefix_mismatch_is_hard_error (e : ValueExtractor) (entry : IFDEntry) :
    ((appleRawOf e entry).length < 22 →
      DetectAndParse e entry = .res "Apple" none
        (some ("apple makernote too short length: " ++
          toString (appleRawOf e entry).length ++ ", minimum: 22")))
  ∧ (¬ (appleRawOf e entry).length < 22 → (appleRawOf e entry).take 12 ≠ appleMagic →
      DetectAndParse e entry = .res "Apple" none
        (some ("incorrect prefix, expected Apple iOS, got: " ++
          goQuote ((appleRawOf e entry).take 12))))
  ∧ (∀ m, appleParse e entry = .matched m →
      DetectAndParse e entry = .res "Apple" (some m) none) := by
  refine ⟨?_, ?_, ?_⟩
  · intro hshort
    show dispatchLoop e entry [appleParser] = _
    simp only [dispatchLoop, appleParser, appleParse, if_pos hshort]
  · intro hlong hmagic
    show dispatchLoop e entry [appleParser] = _
    simp only [dispatchLoop, appleParser, appleParse, if_neg hlong, if_neg (by
      intro h
      exact absurd h (by simpa using hmagic))]
    simp [hmagic]
  · intro m hm
    show dispatchLoop e entry [appleParser] = _
    simp only [dispatchLoop, appleParser, hm]

/-- Witness for C2 (amended) on a 10-byte MakerNote (too short). -/
theorem c2_prefix_mismatch_witness :
    DetectAndParse ⟨List.replicate 10 0, 0, .le⟩ ⟨0x927c, 7, 10, 0⟩
      = .res "Apple" none (some "apple makernote too short length: 10, minimum: 22") := by
  have h := (c2_prefix_mismatch_is_hard_error ⟨List.replicate 10 0, 0, .le⟩
    ⟨0x927c, 7, 10, 0⟩).1 (by decide)
  rw [h]
  rfl

/-- The result of Go `time.Date(...)` as its components. -/
structure GoTime where
  year : Nat
  month : Nat
  day : Nat
  hour : Int
  minute : Int
  sec : Int
  nsec : Int
deriving DecidableEq

/-- Go `int(x)` truncation toward zero of a float value modelled in `ℚ`. -/
def goTruncInt (q : ℚ) : Int := q.num / (q.den : Int)

/-- Decimal digit test and value. -/
def digitVal (c : Char) : Option Nat :=
if '0' ≤ c ∧ c ≤ '9' then some (c.toNat - 48) else none

/-- Model of Go `time.Parse("2006:01:02", s)`: ten characters
`YYYY:MM:DD`, digits in the digit slots, month in 1..12, day in 1..31.
(Go additionally validates the day against the month length; no claim
depends on that refinement.) -/
def goParseDate (s : String) : Option (Nat × Nat × Nat) :=
  match s.toList with
  | [y1, y2, y3, y4, c1, m1, m2, c2, d1, d2] =>
    match digitVal y1, digitVal y2, digitVal y3, digitVal y4,
        digitVal m1, digitVal m2, digitVal d1, digitVal d2 with
    | some a, some b, some c, some d, some e, some f, some g, some h =>
      if c1 = ':' ∧ c2 = ':' then
        let y := ((a * 10 + b) * 10 + c) * 10 + d
        let mo := e * 10 + f
        let da := g * 10 + h
        if 1 ≤ mo ∧ mo ≤ 12 ∧ 1 ≤ da ∧ da ≤ 31 then some (y, mo, da) else none
      else none
    | _, _, _, _, _, _, _, _ => none
  | _ => none

/-- The mutable state of `ExtractGPSIFD` (`gps.go` lines 42-191): the GPS
group of the evidence record plus every local variable of the function.
Defaults are the Go zero values. -/
structure GPSState where
  version : String := ""
  latitude : ℚ := 0
  longitude : ℚ := 0
  altitude : ℚ := 0
  timestamp : Option GoTime := none
  speedStr : String := ""
  direction : String := ""
  mapDatum : String := ""
  destLatitude : ℚ := 0
  destLongitude : ℚ := 0
  destBearingStr : String := ""
  destDistanceStr : String := ""
  processingMethod : String := ""
  differential : String := ""
  hours : Int := 0
  minutes : Int := 0
  seconds : ℚ := 0
  speed : ℚ := 0
  imgDir : ℚ := 0
  destBearing : ℚ := 0
  destDistance : ℚ := 0
  latRef : String := ""
  longRef : String := ""
  imgDirRef : String := ""
  destLatRef : String := ""
  destLongRef : String := ""
  destBearingRef : String := ""
  destDistanceRef : String := ""
  dateStr : String := ""
  speedMetric : String := ""
  hasLat : Bool := false
  hasLong : Bool := false
  hasDestLat : Bool := false
  hasDestLong : Bool := false
  hasTime : Bool := false
  hasSpeed : Bool := false
  hasImgDir : Bool := false
  hasDestBearing : Bool := false
  hasDestDistance : Bool := false
  underSeaLevel : Bool := false

/-- One iteration of the tag switch in `ExtractGPSIFD` (lines 50-130).
`none` models a panic escaping from `ParseIFDEntry`, `GetString`, or
`GetUint8Array`. -/
def gpsStep (helper : ValueExtractor) (st : GPSState) (entryOffset : Int) : Option GPSState :=
  match ParseIFDEntry helper.Data entryOffset helper.Endian with
  | none => none
  | some entry =>
    match entry.Tag with
    | 0x00 => (GetUint8Array helper entryOffset 4).map (fun raw =>
        { st with version := toString (raw.getD 0 0) ++ "." ++ toString (raw.getD 1 0) ++ "." ++
            toString (raw.getD 2 0) ++ "." ++ toString (raw.getD 3 0) })
    | 0x01 => (GetString helper entry entryOffset).map (fun s => { st with latRef := s })
    | 0x02 => some { st with latitude := GetGPSCoord helper entry, hasLat := true }
    | 0x03 => (GetString helper entry entryOffset).map (fun s => { st with longRef := s })
    | 0x04 => some { st with longitude := GetGPSCoord helper entry, hasLong := true }
    | 0x05 =>
        let ref := GetUint8 helper entryOffset
        some (if ref = 1 ∨ ref = 3 then { st with underSeaLevel := true } else st)
    | 0x06 => some { st with altitude := GetRational helper entry 0 false }
    | 0x07 => some { st with
        hours := goTruncInt (GetRational helper entry 0 false),
        minutes := goTruncInt (GetRational helper entry 8 false),
        seconds := GetRational helper entry 16 false,
        hasTime := true }
    | 0x0c => (GetString helper entry entryOffset).map
        (fun s => { st with speedMetric := s, hasSpeed := true })
    | 0x0d => some { st with speed := GetRational helper entry 0 false }
    | 0x10 => (GetString helper entry entryOffset).map (fun s => { st with imgDirRef := s })
    | 0x11 => some { st with imgDir := GetRational helper entry 0 false, hasImgDir := true }
    | 0x12 => (GetString helper entry entryOffset).map (fun s => { st with mapDatum := s })
    | 0x13 => (GetString helper entry entryOffset).map (fun s => { st with destLatRef := s })
    | 0x14 => some { st with destLatitude := GetGPSCoord helper entry, hasDestLat := true }
    | 0x15 => (GetString helper entry entryOffset).map (fun s => { st with destLongRef := s })
    | 0x16 => some { st with destLongitude := GetGPSCoord helper entry, hasDestLong := true }
    | 0x17 => (GetString helper entry entryOffset).map (fun s => { st with destBearingRef := s })
    | 0x18 => some { st with destBearing := GetRational helper entry 0 false, hasDestBearing := true }
    | 0x19 => (GetString helper entry entryOffset).map (fun s => { st with destDistanceRef := s })
    | 0x1a => some { st with destDistance := GetRational helper entry 0 false, hasDestDistance := true }
    | 0x1b => (GetString helper entry entryOffset).map (fun s => { st with processingMethod := s })
    | 0x1d => (GetString helper entry entryOffset).map (fun s => { st with dateStr := s })
    | 0x1e =>
        let rawVal := GetUint16 helper entryOffset
        some { st with differential :=
          if rawVal = 1 then "Differential Corrected" else "No Correction" }
    | _ => some st

/-- The fix-up block after the walk (`gps.go` lines 132-190): sign
corrections, formatted composites, and the timestamp composition.  The
out-of-range checks of the source only log warnings and change no state. -/
def gpsPost (st : GPSState) : GPSState :=
  let s1 := if st.hasLat ∧ st.latRef = "S" then { st with latitude := st.latitude * (-1) } else st
  let s2 := if s1.hasLong ∧ s1.longRef = "W" then
      { s1 with longitude := s1.longitude * (-1) } else s1
  let s3 := if s2.underSeaLevel then { s2 with altitude := s2.altitude * (-1) } else s2
  let s4 := if s3.hasSpeed ∧ s3.speedMetric ≠ "" then
      { s3 with speedStr := fmtFixed 2 s3.speed ++ s3.speedMetric } else s3
  let s5 := if s4.hasImgDir ∧ s4.imgDirRef ≠ "" then
      { s4 with direction := fmtFixed 6 s4.imgDir ++ s4.imgDirRef } else s4
  let s6 := if s5.hasDestLat ∧ s5.destLatRef = "S" then
      { s5 with destLatitude := s5.destLatitude * (-1) } else s5
  let s7 := if s6.hasDestLong ∧ s6.destLongRef = "W" then
      { s6 with destLongitude := s6.destLongitude * (-1) } else s6
  let s8 := if s7.hasDestBearing ∧ s7.destBearingRef ≠ "" then
      { s7 with destBearingStr := fmtFixed 6 s7.destBearing ++ s7.destBearingRef } else s7
  let s9 := if s8.hasDestDistance ∧ s8.destDistanceRef ≠ "" then
      { s8 with destDistanceStr := fmtFixed 6 s8.destDistance ++ s8.destDistanceRef } else s8
  if s9.hasTime ∧ s9.dateStr ≠ "" then
    match goParseDate s9.dateStr with
    | some (y, mo, da) =>
        { s9 with timestamp := some ⟨y, mo, da, s9.hours, s9.minutes, goTruncInt s9.seconds,
            goTruncInt ((s9.seconds - ((goTruncInt s9.seconds : Int) : ℚ)) * 1000000000)⟩ }
    | none => s9
  else s9

/-- Function `ExtractGPSIFD` (`gps.go` lines 42-191): read the entry count
(an unchecked slice in the source), walk the entries in directory order
accumulating raw values and reference flags, then apply the fix-up block. -/
def ExtractGPSIFD (helper : ValueExtractor) (exifIfdOffset : Int) : Option GPSState :=
  match sliceAt helper.Data exifIfdOffset (exifIfdOffset + 2) with
  | none => none
  | some bs =>
    let entryCount := u16 helper.Endian bs
    ((List.range entryCount).foldlM
      (fun st j => gpsStep helper st (exifIfdOffset + 2 + 12 * (j : Int))) {}).map gpsPost

/-- The decoded rational value: 0 on a zero denominator. -/
def ratVal (n d : Nat) : ℚ := if d = 0 then 0 else (n : ℚ) / (d : ℚ)

/-- The decoded degrees-minutes-seconds coordinate. -/
def gpsDMS (dn dd mn md sn sd : Nat) : ℚ :=
ratVal dn dd + ratVal mn md / 60 + ratVal sn sd / 3600

/-- The reference string decoded from the inline 2-byte value `[c, 0]`. -/
def refStr (c : Nat) : String := strOfBytes (dropTrailingZeros [c, 0])

/-- A 12-byte reference-letter entry (ASCII, count 2, value inline). -/
def gpsRefEntry (tag c : Nat) : List Nat := [tag, 0, 2, 0, 2, 0, 0, 0, c, 0, 0, 0]

/-- A 12-byte DMS coordinate entry (RATIONAL, count 3, value at offset 26). -/
def gpsCoordEntry (tag : Nat) : List Nat := [tag, 0, 5, 0, 3, 0, 0, 0, 26, 0, 0, 0]

/-- The 24-byte value region of a DMS coordinate. -/
def gpsRats (dn dd mn md sn sd : Nat) : List Nat :=
enc32 .le dn ++ enc32 .le dd ++ (enc32 .le mn ++ enc32 .le md ++ (enc32 .le sn ++ enc32 .le sd))

/-- A two-entry GPS directory followed by its value region. -/
def gpsPairBuf (e1 e2 vals : List Nat) : List Nat := [2, 0] ++ (e1 ++ (e2 ++ vals))

/-- Unfolding of the walk on a two-entry directory at offset 0. -/
theorem extractGPS_two_entries (data : List Nat) (ts : Int)
    (hslice : sliceAt data 0 2 = some [2, 0]) :
    ExtractGPSIFD ⟨data, ts, .le⟩ 0
      = ((gpsStep ⟨data, ts, .le⟩ {} 2).bind
          (fun s => gpsStep ⟨data, ts, .le⟩ s 14)).map gpsPost := by
  unfold ExtractGPSIFD
  rw [show (0 : Int) + 2 = 2 from rfl, hslice]
  show Option.map gpsPost ((gpsStep ⟨data, ts, .le⟩ {} 2).bind
    fun s => (gpsStep ⟨data, ts, .le⟩ s 14).bind some) = _
  cases gpsStep ⟨data, ts, .le⟩ {} 2 with
  | none => rfl
  | some s =>
      simp only [Option.some_bind]
      cases gpsStep ⟨data, ts, .le⟩ s 14 <;> rfl

/-- A reference-letter entry stores the trimmed string into the matching
reference variable (latitude shown; the tag selects the field). -/
theorem gpsStep_ref_lat (helper : ValueExtractor) (st : GPSState) (o : Int) (c : Nat)
    (hparse : ParseIFDEntry helper.Data o helper.Endian = some ⟨1, 2, 2, c⟩)
    (hstr : GetString helper ⟨1, 2, 2, c⟩ o = some (refStr c)) :
    gpsStep helper st o = some { st with latRef := refStr c } := by
  simp [gpsStep, hparse, hstr]

theorem gpsStep_coord_lat (helper : ValueExtractor) (st : GPSState) (o : Int)
    (hparse : ParseIFDEntry helper.Data o helper.Endian = some ⟨2, 5, 3, 26⟩) :
    gpsStep helper st o
      = some { st with latitude := GetGPSCoord helper ⟨2, 5, 3, 26⟩, hasLat := true } := by
  simp [gpsStep, hparse]

/-- Evaluating the three-rational DMS read on a buffer holding the encoded
rationals at the read offset. -/
theorem getGPSCoordinate_at_rats (ts : Int) (pre suf : List Nat) (dn dd mn md sn sd : Nat)
    (h1 : dn < 4294967296) (h2 : dd < 4294967296) (h3 : mn < 4294967296)
    (h4 : md < 4294967296) (h5 : sn < 4294967296) (h6 : sd < 4294967296) :
    getGPSCoordinate ⟨pre ++ gpsRats dn dd mn md sn sd ++ suf, ts, .le⟩ ((pre.length : Nat) : Int)
      = gpsDMS dn dd mn md sn sd := by
  have hb1 : pre ++ gpsRats dn dd mn md sn sd ++ suf
      = pre ++ enc32 .le dn ++ enc32 .le dd ++
          (enc32 .le mn ++ enc32 .le md ++ (enc32 .le sn ++ enc32 .le sd) ++ suf) := by
    simp [gpsRats, List.append_assoc]
  have hb2 : pre ++ gpsRats dn dd mn md sn sd ++ suf
      = (pre ++ enc32 .le dn ++ enc32 .le dd) ++ enc32 .le mn ++ enc32 .le md ++
          (enc32 .le sn ++ enc32 .le sd ++ suf) := by
    simp [gpsRats, List.append_assoc]
  have hb3 : pre ++ gpsRats dn dd mn md sn sd ++ suf
      = (pre ++ enc32 .le dn ++ enc32 .le dd ++ enc32 .le mn ++ enc32 .le md) ++
          enc32 .le sn ++ enc32 .le sd ++ suf := by
    simp [gpsRats, List.append_assoc]
  have hl2 : (((pre ++ enc32 .le dn ++ enc32 .le dd).length : Nat) : Int)
      = ((pre.length : Nat) : Int) + 8 := by
    have : (pre ++ enc32 .le dn ++ enc32 .le dd).length = pre.length + 8 := by
      simp [enc32_length]
    rw [this]
    push_cast
    ring
  have hl3 : (((pre ++ enc32 .le dn ++ enc32 .le dd ++ enc32 .le mn ++ enc32 .le md).length : Nat) : Int)
      = ((pre.length : Nat) : Int) + 16 := by
    have : (pre ++ enc32 .le dn ++ enc32 .le dd ++ enc32 .le mn ++ enc32 .le md).length
        = pre.length + 16 := by
      simp [enc32_length]
    rw [this]
    push_cast
    ring
  have g1 : getRational ⟨pre ++ gpsRats dn dd mn md sn sd ++ suf, ts, .le⟩
      ((pre.length : Nat) : Int) false = ratVal dn dd := by
    rw [hb1, getRational_at_encoding .le ts pre _ dn dd h1 h2]
    rfl
  have g2 : getRational ⟨pre ++ gpsRats dn dd mn md sn sd ++ suf, ts, .le⟩
      (((pre.length : Nat) : Int) + 8) false = ratVal mn md := by
    rw [hb2, ← hl2, getRational_at_encoding .le ts _ _ mn md h3 h4]
    rfl
  have g3 : getRational ⟨pre ++ gpsRats dn dd mn md sn sd ++ suf, ts, .le⟩
      (((pre.length : Nat) : Int) + 16) false = ratVal sn sd := by
    rw [hb3, ← hl3, getRational_at_encoding .le ts _ _ sn sd h5 h6]
    rfl
  unfold getGPSCoordinate gpsDMS
  rw [g1, g2, g3]

theorem gpsStep_ref_long (helper : ValueExtractor) (st : GPSState) (o : Int) (c : Nat)
    (hparse : ParseIFDEntry helper.Data o helper.Endian = some ⟨3, 2, 2, c⟩)
    (hstr : GetString helper ⟨3, 2, 2, c⟩ o = some (refStr c)) :
    gpsStep helper st o = some { st with longRef := refStr c } := by
  simp [gpsStep, hparse, hstr]

theorem gpsStep_coord_long (helper : ValueExtractor) (st : GPSState) (o : Int)
    (hparse : ParseIFDEntry helper.Data o helper.Endian = some ⟨4, 5, 3, 26⟩) :
    gpsStep helper st o
      = some { st with longitude := GetGPSCoord helper ⟨4, 5, 3, 26⟩, hasLong := true } := by
  simp [gpsStep, hparse]

theorem gpsStep_alt_ref (helper : ValueExtractor) (st : GPSState) (o : Int) (r : Nat)
    (hparse : ParseIFDEntry helper.Data o helper.Endian = some ⟨5, 1, 1, r⟩) :
    gpsStep helper st o
      = some (if GetUint8 helper o = 1 ∨ GetUint8 helper o = 3 then
          { st with underSeaLevel := true } else st) := by
  simp [gpsStep, hparse]

theorem gpsStep_alt (helper : ValueExtractor) (st : GPSState) (o : Int)
    (hparse : ParseIFDEntry helper.Data o helper.Endian = some ⟨6, 5, 1, 26⟩) :
    gpsStep helper st o
      = some { st with altitude := GetRational helper ⟨6, 5, 1, 26⟩ 0 false } := by
  simp [gpsStep, hparse]

theorem gps_lat_refFirst (c dn dd mn md sn sd : Nat)
    (h1 : dn < 4294967296) (h2 : dd < 4294967296) (h3 : mn < 4294967296)
    (h4 : md < 4294967296) (h5 : sn < 4294967296) (h6 : sd < 4294967296) :
    (ExtractGPSIFD ⟨gpsPairBuf (gpsRefEntry 1 c) (gpsCoordEntry 2)
        (gpsRats dn dd mn md sn sd), 0, .le⟩ 0).map (fun s => s.latitude)
      = some ((if refStr c = "S" then -1 else 1) * gpsDMS dn dd mn md sn sd) := by
  set buf := gpsPairBuf (gpsRefEntry 1 c) (gpsCoordEntry 2) (gpsRats dn dd mn md sn sd) with hbuf
  have hslice : sliceAt buf 0 2 = some [2, 0] := by rw [hbuf]; rfl
  have hp1 : ParseIFDEntry buf 2 En.le = some ⟨1, 2, 2, c⟩ := by rw [hbuf]; rfl
  have hstr : GetString ⟨buf, 0, .le⟩ ⟨1, 2, 2, c⟩ 2 = some (refStr c) := by rw [hbuf]; rfl
  have hp2 : ParseIFDEntry buf 14 En.le = some ⟨2, 5, 3, 26⟩ := by rw [hbuf]; rfl
  have hcoord : GetGPSCoord ⟨buf, 0, .le⟩ ⟨2, 5, 3, 26⟩ = gpsDMS dn dd mn md sn sd := by
    unfold GetGPSCoord
    have hb : buf = ([2, 0] ++ gpsRefEntry 1 c ++ gpsCoordEntry 2) ++
        gpsRats dn dd mn md sn sd ++ [] := by
      rw [hbuf]; simp [gpsPairBuf, List.append_assoc]
    have hoff : ((0 : Int) + (((⟨2, 5, 3, 26⟩ : IFDEntry).ValueOffset : Nat) : Int))
        = ((([2, 0] ++ gpsRefEntry 1 c ++ gpsCoordEntry 2).length : Nat) : Int) := by
      simp [gpsRefEntry, gpsCoordEntry]
    rw [hb, hoff, getGPSCoordinate_at_rats 0 _ [] dn dd mn md sn sd h1 h2 h3 h4 h5 h6]
  rw [extractGPS_two_entries buf 0 hslice,
    gpsStep_ref_lat ⟨buf, 0, .le⟩ {} 2 c hp1 hstr]
  simp only [Option.some_bind]
  rw [gpsStep_coord_lat ⟨buf, 0, .le⟩ _ 14 hp2, hcoord]
  by_cases hS : refStr c = "S"
  · simp [gpsPost, hS]
  · simp [gpsPost, hS]

theorem gps_lat_coordFirst (c dn dd mn md sn sd : Nat)
    (h1 : dn < 4294967296) (h2 : dd < 4294967296) (h3 : mn < 4294967296)
    (h4 : md < 4294967296) (h5 : sn < 4294967296) (h6 : sd < 4294967296) :
    (ExtractGPSIFD ⟨gpsPairBuf (gpsCoordEntry 2) (gpsRefEntry 1 c)
        (gpsRats dn dd mn md sn sd), 0, .le⟩ 0).map (fun s => s.latitude)
      = some ((if refStr c = "S" then -1 else 1) * gpsDMS dn dd mn md sn sd) := by
  set buf := gpsPairBuf (gpsCoordEntry 2) (gpsRefEntry 1 c) (gpsRats dn dd mn md sn sd) with hbuf
  have hslice : sliceAt buf 0 2 = some [2, 0] := by rw [hbuf]; rfl
  have hp1 : ParseIFDEntry buf 2 En.le = some ⟨2, 5, 3, 26⟩ := by rw [hbuf]; rfl
  have hp2 : ParseIFDEntry buf 14 En.le = some ⟨1, 2, 2, c⟩ := by rw [hbuf]; rfl
  have hstr : GetString ⟨buf, 0, .le⟩ ⟨1, 2, 2, c⟩ 14 = some (refStr c) := by rw [hbuf]; rfl
  have hcoord : GetGPSCoord ⟨buf, 0, .le⟩ ⟨2, 5, 3, 26⟩ = gpsDMS dn dd mn md sn sd := by
    unfold GetGPSCoord
    have hb : buf = ([2, 0] ++ gpsCoordEntry 2 ++ gpsRefEntry 1 c) ++
        gpsRats dn dd mn md sn sd ++ [] := by
      rw [hbuf]; simp [gpsPairBuf, List.append_assoc]
    have hoff : ((0 : Int) + (((⟨2, 5, 3, 26⟩ : IFDEntry).ValueOffset : Nat) : Int))
        = ((([2, 0] ++ gpsCoordEntry 2 ++ gpsRefEntry 1 c).length : Nat) : Int) := by
      simp [gpsRefEntry, gpsCoordEntry]
    rw [hb, hoff, getGPSCoordinate_at_rats 0 _ [] dn dd mn md sn sd h1 h2 h3 h4 h5 h6]
  rw [extractGPS_two_entries buf 0 hslice,
    gpsStep_coord_lat ⟨buf, 0, .le⟩ {} 2 hp1]
  simp only [Option.some_bind]
  rw [gpsStep_ref_lat ⟨buf, 0, .le⟩ _ 14 c hp2 hstr, hcoord]
  by_cases hS : refStr c = "S"
  · simp [gpsPost, hS]
  · simp [gpsPost, hS]

theorem gps_long_refFirst (c dn dd mn md sn sd : Nat)
    (h1 : dn < 4294967296) (h2 : dd < 4294967296) (h3 : mn < 4294967296)
    (h4 : md < 4294967296) (h5 : sn < 4294967296) (h6 : sd < 4294967296) :
    (ExtractGPSIFD ⟨gpsPairBuf (gpsRefEntry 3 c) (gpsCoordEntry 4)
        (gpsRats dn dd mn md sn sd), 0, .le⟩ 0).map (fun s => s.longitude)
      = some ((if refStr c = "W" then -1 else 1) * gpsDMS dn dd mn md sn sd) := by
  set buf := gpsPairBuf (gpsRefEntry 3 c) (gpsCoordEntry 4) (gpsRats dn dd mn md sn sd) with hbuf
  have hslice : sliceAt buf 0 2 = some [2, 0] := by rw [hbuf]; rfl
  have hp1 : ParseIFDEntry buf 2 En.le = some ⟨3, 2, 2, c⟩ := by rw [hbuf]; rfl
  have hstr : GetString ⟨buf, 0, .le⟩ ⟨3, 2, 2, c⟩ 2 = some (refStr c) := by rw [hbuf]; rfl
  have hp2 : ParseIFDEntry buf 14 En.le = some ⟨4, 5, 3, 26⟩ := by rw [hbuf]; rfl
  have hcoord : GetGPSCoord ⟨buf, 0, .le⟩ ⟨4, 5, 3, 26⟩ = gpsDMS dn dd mn md sn sd := by
    unfold GetGPSCoord
    have hb : buf = ([2, 0] ++ gpsRefEntry 3 c ++ gpsCoordEntry 4) ++
        gpsRats dn dd mn md sn sd ++ [] := by
      rw [hbuf]; simp [gpsPairBuf, List.append_assoc]
    have hoff : ((0 : Int) + (((⟨4, 5, 3, 26⟩ : IFDEntry).ValueOffset : Nat) : Int))
        = ((([2, 0] ++ gpsRefEntry 3 c ++ gpsCoordEntry 4).length : Nat) : Int) := by
      simp [gpsRefEntry, gpsCoordEntry]
    rw [hb, hoff, getGPSCoordinate_at_rats 0 _ [] dn dd mn md sn sd h1 h2 h3 h4 h5 h6]
  rw [extractGPS_two_entries buf 0 hslice,
    gpsStep_ref_long ⟨buf, 0, .le⟩ {} 2 c hp1 hstr]
  simp only [Option.some_bind]
  rw [gpsStep_coord_long ⟨buf, 0, .le⟩ _ 14 hp2, hcoord]
  by_cases hW : refStr c = "W"
  · simp [gpsPost, hW]
  · simp [gpsPost, hW]

theorem gps_long_coordFirst (c dn dd mn md sn sd : Nat)
    (h1 : dn < 4294967296) (h2 : dd < 4294967296) (h3 : mn < 4294967296)
    (h4 : md < 4294967296) (h5 : sn < 4294967296) (h6 : sd < 4294967296) :
    (ExtractGPSIFD ⟨gpsPairBuf (gpsCoordEntry 4) (gpsRefEntry 3 c)
        (gpsRats dn dd mn md sn sd), 0, .le⟩ 0).map (fun s => s.longitude)
      = some ((if refStr c = "W" then -1 else 1) * gpsDMS dn dd mn md sn sd) := by
  set buf := gpsPairBuf (gpsCoordEntry 4) (gpsRefEntry 3 c) (gpsRats dn dd mn md sn sd) with hbuf
  have hslice : sliceAt buf 0 2 = some [2, 0] := by rw [hbuf]; rfl
  have hp1 : ParseIFDEntry buf 2 En.le = some ⟨4, 5, 3, 26⟩ := by rw [hbuf]; rfl
  have hp2 : ParseIFDEntry buf 14 En.le = some ⟨3, 2, 2, c⟩ := by rw [hbuf]; rfl
  have hstr : GetString ⟨buf, 0, .le⟩ ⟨3, 2, 2, c⟩ 14 = some (refStr c) := by rw [hbuf]; rfl
  have hcoord : GetGPSCoord ⟨buf, 0, .le⟩ ⟨4, 5, 3, 26⟩ = gpsDMS dn dd mn md sn sd := by
    unfold GetGPSCoord
    have hb : buf = ([2, 0] ++ gpsCoordEntry 4 ++ gpsRefEntry 3 c) ++
        gpsRats dn dd mn md sn sd ++ [] := by
      rw [hbuf]; simp [gpsPairBuf, List.append_assoc]
    have hoff : ((0 : Int) + (((⟨4, 5, 3, 26⟩ : IFDEntry).ValueOffset : Nat) : Int))
        = ((([2, 0] ++ gpsCoordEntry 4 ++ gpsRefEntry 3 c).length : Nat) : Int) := by
      simp [gpsRefEntry, gpsCoordEntry]
    rw [hb, hoff, getGPSCoordinate_at_rats 0 _ [] dn dd mn md sn sd h1 h2 h3 h4 h5 h6]
  rw [extractGPS_two_entries buf 0 hslice,
    gpsStep_coord_long ⟨buf, 0, .le⟩ {} 2 hp1]
  simp only [Option.some_bind]
  rw [gpsStep_ref_long ⟨buf, 0, .le⟩ _ 14 c hp2 hstr, hcoord]
  by_cases hW : refStr c = "W"
  · simp [gpsPost, hW]
  · simp [gpsPost, hW]

/-- A 12-byte altitude-reference entry (BYTE, count 1, inline value `r`). -/
def gpsAltRefEntry (r : Nat) : List Nat := [5, 0, 1, 0, 1, 0, 0, 0, r, 0, 0, 0]

/-- A 12-byte altitude entry (RATIONAL, count 1, value at offset 26). -/
def gpsAltEntry : List Nat := [6, 0, 5, 0, 1, 0, 0, 0, 26, 0, 0, 0]

/-- The 8-byte value region of the altitude rational. -/
def gpsAltVals (an ad : Nat) : List Nat := enc32 .le an ++ enc32 .le ad

theorem gps_alt_refFirst (r an ad : Nat)
    (ha1 : an < 4294967296) (ha2 : ad < 4294967296) :
    (ExtractGPSIFD ⟨gpsPairBuf (gpsAltRefEntry r) gpsAltEntry (gpsAltVals an ad), 0, .le⟩
        0).map (fun s => s.altitude)
      = some ((if r = 1 ∨ r = 3 then -1 else 1) * ratVal an ad) := by
  set buf := gpsPairBuf (gpsAltRefEntry r) gpsAltEntry (gpsAltVals an ad) with hbuf
  have hslice : sliceAt buf 0 2 = some [2, 0] := by rw [hbuf]; rfl
  have hp1 : ParseIFDEntry buf 2 En.le = some ⟨5, 1, 1, r⟩ := by rw [hbuf]; rfl
  have hp2 : ParseIFDEntry buf 14 En.le = some ⟨6, 5, 1, 26⟩ := by rw [hbuf]; rfl
  have hu8 : GetUint8 ⟨buf, 0, .le⟩ 2 = r := by rw [hbuf]; rfl
  have hrat : GetRational ⟨buf, 0, .le⟩ ⟨6, 5, 1, 26⟩ 0 false = ratVal an ad := by
    unfold GetRational
    have hb : buf = ([2, 0] ++ gpsAltRefEntry r ++ gpsAltEntry) ++
        enc32 .le an ++ enc32 .le ad ++ [] := by
      rw [hbuf]; simp [gpsPairBuf, gpsAltVals, List.append_assoc]
    have hoff : ((0 : Int) + (((⟨6, 5, 1, 26⟩ : IFDEntry).ValueOffset : Nat) : Int) + 0)
        = ((([2, 0] ++ gpsAltRefEntry r ++ gpsAltEntry).length : Nat) : Int) := by
      simp [gpsAltRefEntry, gpsAltEntry]
    rw [hb, hoff, getRational_at_encoding .le 0 _ [] an ad ha1 ha2]
    rfl
  rw [extractGPS_two_entries buf 0 hslice,
    gpsStep_alt_ref ⟨buf, 0, .le⟩ {} 2 r hp1, hu8]
  by_cases hr : r = 1 ∨ r = 3
  · rw [if_pos hr]
    simp only [Option.some_bind]
    rw [gpsStep_alt ⟨buf, 0, .le⟩ _ 14 hp2, hrat]
    simp [gpsPost, hr]
  · rw [if_neg hr]
    simp only [Option.some_bind]
    rw [gpsStep_alt ⟨buf, 0, .le⟩ _ 14 hp2, hrat]
    simp [gpsPost, hr]

theorem gps_alt_coordFirst (r an ad : Nat)
    (ha1 : an < 4294967296) (ha2 : ad < 4294967296) :
    (ExtractGPSIFD ⟨gpsPairBuf gpsAltEntry (gpsAltRefEntry r) (gpsAltVals an ad), 0, .le⟩
        0).map (fun s => s.altitude)
      = some ((if r = 1 ∨ r = 3 then -1 else 1) * ratVal an ad) := by
  set buf := gpsPairBuf gpsAltEntry (gpsAltRefEntry r) (gpsAltVals an ad) with hbuf
  have hslice : sliceAt buf 0 2 = some [2, 0] := by rw [hbuf]; rfl
  have hp1 : ParseIFDEntry buf 2 En.le = some ⟨6, 5, 1, 26⟩ := by rw [hbuf]; rfl
  have hp2 : ParseIFDEntry buf 14 En.le = some ⟨5, 1, 1, r⟩ := by rw [hbuf]; rfl
  have hu8 : GetUint8 ⟨buf, 0, .le⟩ 14 = r := by rw [hbuf]; rfl
  have hrat : GetRational ⟨buf, 0, .le⟩ ⟨6, 5, 1, 26⟩ 0 false = ratVal an ad := by
    unfold GetRational
    have hb : buf = ([2, 0] ++ gpsAltEntry ++ gpsAltRefEntry r) ++
        enc32 .le an ++ enc32 .le ad ++ [] := by
      rw [hbuf]; simp [gpsPairBuf, gpsAltVals, List.append_assoc]
    have hoff : ((0 : Int) + (((⟨6, 5, 1, 26⟩ : IFDEntry).ValueOffset : Nat) : Int) + 0)
        = ((([2, 0] ++ gpsAltEntry ++ gpsAltRefEntry r).length : Nat) : Int) := by
      simp [gpsAltRefEntry, gpsAltEntry]
    rw [hb, hoff, getRational_at_encoding .le 0 _ [] an ad ha1 ha2]
    rfl
  rw [extractGPS_two_entries buf 0 hslice,
    gpsStep_alt ⟨buf, 0, .le⟩ {} 2 hp1, hrat]
  simp only [Option.some_bind]
  rw [gpsStep_alt_ref ⟨buf, 0, .le⟩ _ 14 r hp2, hu8]
  by_cases hr : r = 1 ∨ r = 3
  · rw [if_pos hr]
    simp [gpsPost, hr]
  · rw [if_neg hr]
    simp [gpsPost, hr]

/-- C5: on a GPS sub-IFD holding a reference entry and its coordinate entry,
after the whole directory is walked the final latitude equals the decoded DMS
coordinate multiplied by -1 exactly when the reference string is "S" (and by 1
otherwise), the same for longitude with "W", and the altitude is negated
exactly when the altitude-reference byte is 1 or 3 — and in each case the
result is identical whether the reference entry appears before or after the
coordinate entry in directory order. -/
theorem c5_gps_sign_law_and_order (c w r dn dd mn md sn sd an ad : Nat)
    (_hc : c < 256) (_hw : w < 256) (_hr : r < 256)
    (h1 : dn < 4294967296) (h2 : dd < 4294967296) (h3 : mn < 4294967296)
    (h4 : md < 4294967296) (h5 : sn < 4294967296) (h6 : sd < 4294967296)
    (ha1 : an < 4294967296) (ha2 : ad < 4294967296) :
    ((ExtractGPSIFD ⟨gpsPairBuf (gpsRefEntry 1 c) (gpsCoordEntry 2)
          (gpsRats dn dd mn md sn sd), 0, .le⟩ 0).map (fun s => s.latitude)
        = some ((if refStr c = "S" then -1 else 1) * gpsDMS dn dd mn md sn sd)
      ∧ (ExtractGPSIFD ⟨gpsPairBuf (gpsCoordEntry 2) (gpsRefEntry 1 c)
          (gpsRats dn dd mn md sn sd), 0, .le⟩ 0).map (fun s => s.latitude)
        = some ((if refStr c = "S" then -1 else 1) * gpsDMS dn dd mn md sn sd))
  ∧ ((ExtractGPSIFD ⟨gpsPairBuf (gpsRefEntry 3 w) (gpsCoordEntry 4)
          (gpsRats dn dd mn md sn sd), 0, .le⟩ 0).map (fun s => s.longitude)
        = some ((if refStr w = "W" then -1 else 1) * gpsDMS dn dd mn md sn sd)
      ∧ (ExtractGPSIFD ⟨gpsPairBuf (gpsCoordEntry 4) (gpsRefEntry 3 w)
          (gpsRats dn dd mn md sn sd), 0, .le⟩ 0).map (fun s => s.longitude)
        = some ((if refStr w = "W" then -1 else 1) * gpsDMS dn dd mn md sn sd))
  ∧ ((ExtractGPSIFD ⟨gpsPairBuf (gpsAltRefEntry r) gpsAltEntry
          (gpsAltVals an ad), 0, .le⟩ 0).map (fun s => s.altitude)
        = some ((if r = 1 ∨ r = 3 then -1 else 1) * ratVal an ad)
      ∧ (ExtractGPSIFD ⟨gpsPairBuf gpsAltEntry (gpsAltRefEntry r)
          (gpsAltVals an ad), 0, .le⟩ 0).map (fun s => s.altitude)
        = some ((if r = 1 ∨ r = 3 then -1 else 1) * ratVal an ad)) :=
  ⟨⟨gps_lat_refFirst c dn dd mn md sn sd h1 h2 h3 h4 h5 h6,
    gps_lat_coordFirst c dn dd mn md sn sd h1 h2 h3 h4 h5 h6⟩,
   ⟨gps_long_refFirst w dn dd mn md sn sd h1 h2 h3 h4 h5 h6,
    gps_long_coordFirst w dn dd mn md sn sd h1 h2 h3 h4 h5 h6⟩,
   ⟨gps_alt_refFirst r an ad ha1 ha2,
    gps_alt_coordFirst r an ad ha1 ha2⟩⟩

/-- Witness for C5 with ref "S" (byte 83), ref "W" (byte 87), altitude ref 1,
latitude rational `(405000, 10000)` (the spec's 40.5 degrees). -/
theorem c5_gps_sign_law_witness :
    refStr 83 = "S" ∧
    (if refStr 83 = "S" then (-1 : ℚ) else 1) * gpsDMS 405000 10000 0 1 0 1 = -(81 / 2) ∧
    (ExtractGPSIFD ⟨gpsPairBuf (gpsRefEntry 1 83) (gpsCoordEntry 2)
        (gpsRats 405000 10000 0 1 0 1), 0, .le⟩ 0).map (fun s => s.latitude)
      = some ((if refStr 83 = "S" then -1 else 1) * gpsDMS 405000 10000 0 1 0 1) ∧
    (ExtractGPSIFD ⟨gpsPairBuf (gpsCoordEntry 2) (gpsRefEntry 1 83)
        (gpsRats 405000 10000 0 1 0 1), 0, .le⟩ 0).map (fun s => s.latitude)
      = some ((if refStr 83 = "S" then -1 else 1) * gpsDMS 405000 10000 0 1 0 1) ∧
    (ExtractGPSIFD ⟨gpsPairBuf (gpsAltRefEntry 1) gpsAltEntry
        (gpsAltVals 100 1), 0, .le⟩ 0).map (fun s => s.altitude)
      = some ((if (1 : Nat) = 1 ∨ (1 : Nat) = 3 then -1 else 1) * ratVal 100 1) :=
  ⟨by decide,
   by
     have hS : refStr 83 = "S" := by decide
     rw [if_pos hS]
     norm_num [gpsDMS, ratVal],
   (c5_gps_sign_law_and_order 83 87 1 405000 10000 0 1 0 1 100 1
      (by decide) (by decide) (by decide) (by decide) (by decide) (by decide)
      (by decide) (by decide) (by decide) (by decide) (by decide)).1.1,
   (c5_gps_sign_law_and_order 83 87 1 405000 10000 0 1 0 1 100 1
      (by decide) (by decide) (by decide) (by decide) (by decide) (by decide)
      (by decide) (by decide) (by decide) (by decide) (by decide)).1.2,
   (c5_gps_sign_law_and_order 83 87 1 405000 10000 0 1 0 1 100 1
      (by decide) (by decide) (by decide) (by decide) (by decide) (by decide)
      (by decide) (by decide) (by decide) (by decide) (by decide)).2.2.1⟩
